import Mathlib

/-!
# OpenDUNE SDL2 video driver (`src/video/video_sdl2.c`)

A shallow embedding of the driver: the module's static variables and the part of
the environment it talks to are the fields of `World`; every call the driver makes
to a function outside the file is appended to `World.calls`, oldest first.

Conventions of the embedding.

* `uint8`, `uint16`, `uint32` and `int` values are natural numbers or integers;
  where C converts to a narrower type the conversion is written out with `%`.
* Memory reached through a pointer handed in from outside (`void *palette`, the
  screen returned by `GFX_Screen_Get_ByIndex`) is a map from offsets to values.
  The driver's own array `s_palette[256]` is bounds-checked: a store outside
  `0..255` makes `Video_SetPalette` return `none`.
* `s_gfx_screen` holds the contents of the true-colour buffer and
  `s_gfx_screen_ptr` the pointer value that `malloc` returned (0 is `NULL`);
  whether the pointer is valid when the copy loop runs is outside the embedding.
* The results of the host calls of `Video_Init` are given to it as a record.
-/

namespace OpenDUNE

/-! ## Constants taken from headers outside the file -/

/-- Modelled from the spec: `SCREEN_WIDTH` of `gfx.h`, the 320 of the 320x200 logical screen. -/
def SCREEN_WIDTH : Nat := 320

/-- Modelled from the spec: `SCREEN_HEIGHT` of `gfx.h`, the 200 of the 320x200 logical screen. -/
def SCREEN_HEIGHT : Nat := 200

/-- Value of `SDL_BUTTON_LEFT` in `SDL_mouse.h`. -/
def SDL_BUTTON_LEFT : Nat := 1

/-- Value of `SDL_BUTTON_RIGHT` in `SDL_mouse.h`. -/
def SDL_BUTTON_RIGHT : Nat := 3

/-- Value of `SDL_DISABLE` in `SDL_events.h`. -/
def SDL_DISABLE : Int := 0

/-- The `SDL_WINDOW_WIDTH` of the `enum` at the top of the file. -/
def SDL_WINDOW_WIDTH : Nat := 640

/-- The `SDL_WINDOW_HEIGHT` of the `enum` at the top of the file. -/
def SDL_WINDOW_HEIGHT : Nat := 400

/-! ## Data model -/

/-- Host events as `SDL_PollEvent` hands them out; `other` stands for every event type the
`switch` of `Video_Tick` has no case for. Coordinates and key symbols are `Sint32` in SDL,
the button is a `Uint8`. -/
inductive SDL_Event where
  | quit
  | mouseMotion (x y : Int)
  | mouseButtonDown (button : Nat)
  | mouseButtonUp (button : Nat)
  | keyDown (sym : Int)
  | keyUp (sym : Int)
  | other (type : Nat)
  deriving DecidableEq, Repr

/-- Calls that leave the file, with the arguments that matter. -/
inductive Call where
  | SDL_PollEvent
  | Mouse_EventHandler (x y : Nat) (left right : Bool)
  | Input_EventHandler (key : Nat)
  | SDL_WarpMouseInWindow (window : Nat) (x y : Nat)
  | Warning (sym : Nat)
  | PrepareEnd
  | exit (code : Int)
  | GFX_Screen_Get_ByIndex
  | SDL_UpdateTexture (texture : Nat)
  | SDL_RenderCopy (renderer texture : Nat)
  | SDL_RenderPresent (renderer : Nat)
  | SDL_Init
  | SDL_GetError
  /-- The five `Error` calls of `Video_Init`, numbered 1 to 5 in source order. -/
  | Error (message : Nat)
  | SDL_CreateWindowAndRenderer (width height : Nat)
  | SDL_SetWindowTitle (window : Nat)
  | SDL_RenderSetLogicalSize (renderer width height : Nat)
  | SDL_CreateTexture (renderer width height : Nat)
  | malloc (size : Nat)
  | SDL_ShowCursor (toggle : Int)
  deriving DecidableEq, Repr

/-- Static variables of the driver followed by the environment it reads and writes. -/
structure World where
  s_video_initialized : Bool
  s_video_lock : Bool
  s_window : Nat
  s_renderer : Nat
  s_texture : Nat
  s_gfx_screen_ptr : Nat
  s_gfx_screen : Nat → Nat
  s_palette : Nat → Nat
  s_keyBufferLatest : Nat
  s_mousePosX : Nat
  s_mousePosY : Nat
  s_mouseButtonLeft : Bool
  s_mouseButtonRight : Bool
  s_mouseMinX : Nat
  s_mouseMaxX : Nat
  s_mouseMinY : Nat
  s_mouseMaxY : Nat
  /-- The flag `g_fileOperation` of `file.h`. -/
  g_fileOperation : Nat
  /-- The bytes behind `GFX_Screen_Get_ByIndex(SCREEN_0)`. -/
  screen0 : Nat → Nat
  /-- Events the host still holds, next one first. -/
  events : List SDL_Event
  /-- Calls made so far, oldest first. -/
  calls : List Call
  /-- Set once `exit` has been called. -/
  exited : Bool

/-- The table `s_SDL_keymap`, entry by entry. -/
def s_SDL_keymap : List Nat := [
     0,    0,    0,    0,    0,    0,    0,    0, 0x0E, 0x0F,    0,    0,    0, 0x1C,    0,    0,
     0,    0,    0,    0,    0,    0,    0,    0,    0,    0,    0, 0x01,    0,    0,    0,    0,
  0x39,    0,    0,    0,    0,    0,    0,    0,    0,    0,    0,    0, 0x33, 0x0C, 0x34, 0x35,
  0x0B, 0x02, 0x03, 0x04, 0x05, 0x06, 0x07, 0x08, 0x09, 0x0A,    0,    0,    0, 0x0D,    0,    0,
     0, 0x1E, 0x30, 0x2E, 0x20, 0x12, 0x21, 0x22, 0x23, 0x17, 0x24, 0x25, 0x26, 0x32, 0x31, 0x18,
  0x19, 0x10, 0x13, 0x1F, 0x14, 0x16, 0x2F, 0x11, 0x2D, 0x15, 0x2C,    0, 0x2B,    0,    0,    0,
  0x29, 0x1E, 0x30, 0x2E, 0x20, 0x12, 0x21, 0x22, 0x23, 0x17, 0x24, 0x25, 0x26, 0x32, 0x31, 0x18,
  0x19, 0x10, 0x13, 0x1F, 0x14, 0x16, 0x2F, 0x11, 0x2D, 0x15, 0x2C,    0,    0,    0,    0, 0x53,
     0,    0,    0,    0,    0,    0,    0,    0,    0,    0,    0,    0,    0,    0,    0,    0,
     0,    0,    0,    0,    0,    0,    0,    0,    0,    0,    0,    0,    0,    0,    0,    0,
     0,    0,    0,    0,    0,    0,    0,    0,    0,    0,    0,    0,    0,    0,    0,    0,
     0,    0,    0,    0,    0,    0,    0,    0,    0,    0,    0,    0,    0,    0,    0,    0,
     0,    0,    0,    0,    0,    0,    0,    0,    0,    0,    0,    0,    0,    0,    0,    0,
     0,    0,    0,    0,    0,    0,    0,    0,    0,    0,    0,    0,    0,    0,    0,    0,
     0,    0,    0,    0,    0,    0,    0,    0,    0,    0,    0,    0,    0,    0,    0,    0,
     0,    0,    0,    0,    0,    0,    0,    0,    0,    0,    0,    0,    0,    0,    0,    0,
     0, 0x4F, 0x50, 0x51, 0x4B, 0x1C, 0x4D, 0x47, 0x48, 0x49,    0,    0,    0,    0,    0,    0,
     0, 0x48, 0x50, 0x4D, 0x4B, 0x52, 0x47, 0x4F, 0x49, 0x51, 0x3B, 0x3C, 0x3D, 0x3E, 0x3F, 0x40,
  0x41, 0x42, 0x43, 0x44, 0x57, 0x58,    0,    0,    0,    0,    0,    0,    0,    0,    0, 0x36,
  0x36,    0,    0,    0,    0,    0,    0,    0,    0,    0,    0,    0,    0,    0,    0,    0]

/-! ## Operations -/

/-- Appends one outside call to the log. -/
def World.call (w : World) (c : Call) : World :=
  { w with calls := w.calls ++ [c] }

/-- `Video_Mouse_Callback`: reports position and buttons to the engine. -/
def Video_Mouse_Callback (w : World) : World :=
  w.call (Call.Mouse_EventHandler w.s_mousePosX w.s_mousePosY
    w.s_mouseButtonLeft w.s_mouseButtonRight)

/-- `Video_Key_Callback`: remembers the key and hands it to the engine. -/
def Video_Key_Callback (w : World) (key : Nat) : World :=
  ({ w with s_keyBufferLatest := key }).call (Call.Input_EventHandler key)

/-- `Video_Mouse_Move`: the four bound checks in source order, then warp or store. -/
def Video_Mouse_Move (w : World) (x y : Nat) : World :=
  let rx := x
  let ry := y
  let rx := if w.s_mouseMinX ≠ 0 ∧ rx < w.s_mouseMinX then w.s_mouseMinX else rx
  let rx := if w.s_mouseMaxX ≠ 0 ∧ rx > w.s_mouseMaxX then w.s_mouseMaxX else rx
  let ry := if w.s_mouseMinY ≠ 0 ∧ ry < w.s_mouseMinY then w.s_mouseMinY else ry
  let ry := if w.s_mouseMaxY ≠ 0 ∧ ry > w.s_mouseMaxY then w.s_mouseMaxY else ry
  if x ≠ rx ∨ y ≠ ry then
    w.call (Call.SDL_WarpMouseInWindow w.s_window rx ry)
  else
    Video_Mouse_Callback { w with s_mousePosX := rx, s_mousePosY := ry }

/-- `Video_Mouse_Button`. -/
def Video_Mouse_Button (w : World) (left down : Bool) : World :=
  let w := if left then { w with s_mouseButtonLeft := down }
           else { w with s_mouseButtonRight := down }
  Video_Mouse_Callback w

/-- `Video_Mouse_SetPosition`. -/
def Video_Mouse_SetPosition (w : World) (x y : Nat) : World :=
  w.call (Call.SDL_WarpMouseInWindow w.s_window x y)

/-- `Video_Mouse_SetRegion`. -/
def Video_Mouse_SetRegion (w : World) (minX maxX minY maxY : Nat) : World :=
  { w with s_mouseMinX := minX, s_mouseMaxX := maxX, s_mouseMinY := minY, s_mouseMaxY := maxY }

/-- The copy loop of `Video_DrawScreen` after its first `n` rounds (`i = 0 .. n-1`):
round `i` stores `s_palette[gfx_screen8[i]]` at `s_gfx_screen[i]`; the index read from the
screen is a `uint8`. -/
def Video_DrawScreen_loop (palette gfx_screen8 : Nat → Nat) : Nat → (Nat → Nat) → (Nat → Nat)
  | 0, dst => dst
  | n + 1, dst =>
    Function.update (Video_DrawScreen_loop palette gfx_screen8 n dst) n
      (palette (gfx_screen8 n % 256))

/-- `Video_DrawScreen`. -/
def Video_DrawScreen (w : World) : World :=
  let w := w.call Call.GFX_Screen_Get_ByIndex
  let w := { w with s_gfx_screen :=
    Video_DrawScreen_loop w.s_palette w.screen0 (SCREEN_WIDTH * SCREEN_HEIGHT) w.s_gfx_screen }
  let w := w.call (Call.SDL_UpdateTexture w.s_texture)
  w.call (Call.SDL_RenderCopy w.s_renderer w.s_texture)

/-- Conversion of an `Sint32` to `unsigned int`. -/
def toUInt32 (z : Int) : Nat := (z % 4294967296).toNat

/-- Conversion of an `Sint32` to `uint16`. -/
def toUInt16 (z : Int) : Nat := (z % 65536).toNat

/-- The block shared by `case SDL_KEYDOWN` (which enters it with `keyup = 0`) and
`case SDL_KEYUP` (`keyup = 1`): bounds check, zero check with warning, then the callback
with the byte converted to `uint8`. `sizeof(s_SDL_keymap)` is the number of entries. -/
def Video_Tick_key (w : World) (keyup : Nat) (k : Int) : World :=
  let sym := toUInt32 k
  if sym ≥ s_SDL_keymap.length then w
  else if s_SDL_keymap.getD sym 0 = 0 then w.call (Call.Warning sym)
  else Video_Key_Callback w ((s_SDL_keymap.getD sym 0 ||| (if keyup ≠ 0 then 0x80 else 0x0)) % 256)

/-- Body of the `switch` in `Video_Tick` for every event but `SDL_QUIT`. The two `continue`
statements and the `break`s all lead to the next poll, so the body just returns. -/
def Video_Tick_dispatch (w : World) : SDL_Event → World
  | SDL_Event.quit => w
  | SDL_Event.mouseMotion x y => Video_Mouse_Move w (toUInt16 x) (toUInt16 y)
  | SDL_Event.mouseButtonDown button =>
    let w := if button = SDL_BUTTON_LEFT then Video_Mouse_Button w true true else w
    if button = SDL_BUTTON_RIGHT then Video_Mouse_Button w false true else w
  | SDL_Event.mouseButtonUp button =>
    let w := if button = SDL_BUTTON_LEFT then Video_Mouse_Button w true false else w
    if button = SDL_BUTTON_RIGHT then Video_Mouse_Button w false false else w
  | SDL_Event.keyDown k => Video_Tick_key w 0 k
  | SDL_Event.keyUp k => Video_Tick_key w 1 k
  | SDL_Event.other _ => w

/-- The `while (SDL_PollEvent(&event))` loop of `Video_Tick`, run on the events the host
holds. Every poll is logged; a poll that finds an event takes it off the queue. On
`SDL_QUIT` the lock is released, `PrepareEnd` runs and the process exits. -/
def Video_Tick_loop : List SDL_Event → World → World
  | [], w => w.call Call.SDL_PollEvent
  | e :: rest, w =>
    let w := ({ w with events := rest }).call Call.SDL_PollEvent
    match e with
    | SDL_Event.quit =>
      let w := { w with s_video_lock := false }
      let w := w.call Call.PrepareEnd
      { w.call (Call.exit 0) with exited := true }
    | e => Video_Tick_loop rest (Video_Tick_dispatch w e)

/-- `Video_Tick`. After `exit` nothing else runs. -/
def Video_Tick (w : World) : World :=
  if !w.s_video_initialized then w
  else if w.g_fileOperation ≠ 0 then w
  else if w.s_video_lock then w
  else
    let w := { w with s_video_lock := true }
    let w := Video_Tick_loop w.events w
    if w.exited then w
    else
      let w := Video_DrawScreen w
      let w := w.call (Call.SDL_RenderPresent w.s_renderer)
      { w with s_video_lock := false }

/-- The value stored for one palette entry whose three bytes are `p0 p1 p2`. -/
def Video_SetPalette_entry (p0 p1 p2 : Nat) : Nat :=
  0xff000000
    ||| ((((p0 &&& 0x3F) * 0x41) <<< 12) &&& 0x00ff0000)
    ||| ((((p1 &&& 0x3F) * 0x41) <<< 4) &&& 0x0000ff00)
    ||| (((p2 &&& 0x3F) * 0x41) >>> 4)

/-- The `for` loop of `Video_SetPalette` with `n` rounds left: `i` is the loop index, `off`
the distance of the moving pointer `p` from the start of the buffer. A store outside
`s_palette[0..255]` gives `none`. -/
def Video_SetPalette_loop (buf : Nat → Nat) : Nat → Int → Nat → (Nat → Nat) → Option (Nat → Nat)
  | 0, _, _, pal => some pal
  | n + 1, i, off, pal =>
    if 0 ≤ i ∧ i < 256 then
      Video_SetPalette_loop buf n (i + 1) (off + 3)
        (Function.update pal i.toNat
          (Video_SetPalette_entry (buf off % 256) (buf (off + 1) % 256) (buf (off + 2) % 256)))
    else none

/-- `Video_SetPalette`: the loop runs for `i = from_, ..., from_ + length - 1`, that is
`length` rounds when `length` is positive and none otherwise. -/
def Video_SetPalette (w : World) (buf : Nat → Nat) (from_ length : Int) : Option World :=
  let w := { w with s_video_lock := true }
  match Video_SetPalette_loop buf length.toNat from_ 0 w.s_palette with
  | none => none
  | some pal => some { w with s_palette := pal, s_video_lock := false }

/-- What the host answers to the calls of one `Video_Init`: the three `int` results, the
window and renderer that `SDL_CreateWindowAndRenderer` writes through its last two
arguments, the texture and the block that `SDL_CreateTexture` and `malloc` return (0 is
`NULL`), and what the fresh block holds. -/
structure Video_Init_host where
  SDL_Init : Int
  SDL_CreateWindowAndRenderer : Int
  window : Nat
  renderer : Nat
  SDL_RenderSetLogicalSize : Int
  SDL_CreateTexture : Nat
  malloc : Nat
  memory : Nat → Nat

/-- `Video_Init`, returning the new state and the result. `sizeof(uint32)` is 4. -/
def Video_Init (w : World) (host : Video_Init_host) : World × Bool :=
  if w.s_video_initialized then (w, true)
  else
    let w := w.call Call.SDL_Init
    if host.SDL_Init ≠ 0 then
      ((w.call Call.SDL_GetError).call (Call.Error 1), false)
    else
      let w := w.call (Call.SDL_CreateWindowAndRenderer SDL_WINDOW_WIDTH SDL_WINDOW_HEIGHT)
      let w := { w with s_window := host.window, s_renderer := host.renderer }
      if host.SDL_CreateWindowAndRenderer ≠ 0 then
        ((w.call Call.SDL_GetError).call (Call.Error 2), false)
      else
        let w := w.call (Call.SDL_SetWindowTitle w.s_window)
        let w := w.call (Call.SDL_RenderSetLogicalSize w.s_renderer SCREEN_WIDTH SCREEN_HEIGHT)
        if host.SDL_RenderSetLogicalSize ≠ 0 then
          ((w.call Call.SDL_GetError).call (Call.Error 3), false)
        else
          let w := w.call (Call.SDL_CreateTexture w.s_renderer SCREEN_WIDTH SCREEN_HEIGHT)
          let w := { w with s_texture := host.SDL_CreateTexture }
          if w.s_texture = 0 then
            ((w.call Call.SDL_GetError).call (Call.Error 4), false)
          else
            let w := w.call (Call.malloc (SCREEN_WIDTH * SCREEN_HEIGHT * 4))
            let w := { w with s_gfx_screen_ptr := host.malloc, s_gfx_screen := host.memory }
            if w.s_gfx_screen_ptr = 0 then
              (w.call (Call.Error 5), false)
            else
              let w := w.call (Call.SDL_ShowCursor SDL_DISABLE)
              ({ w with s_video_initialized := true }, true)

/-- One round of the poll loop of `Video_Tick` for an event other than `SDL_QUIT`: the poll
is logged and takes the event off the queue, then the `switch` runs. -/
def Video_Tick_round (w : World) (e : SDL_Event) : World :=
  Video_Tick_dispatch (({ w with events := w.events.tail }).call Call.SDL_PollEvent) e

/-- Calls that belong to drawing or presenting: those of `Video_DrawScreen` and
`SDL_RenderPresent`. -/
def Call.isDrawOrPresent : Call → Bool
  | Call.GFX_Screen_Get_ByIndex => true
  | Call.SDL_UpdateTexture _ => true
  | Call.SDL_RenderCopy _ _ => true
  | Call.SDL_RenderPresent _ => true
  | _ => false

/-- The driver before `Video_Init`: every static variable has its initialiser, nothing has
been called yet; the screen contents and the pending host events are given. -/
def World.start (screen0 : Nat → Nat) (events : List SDL_Event) : World :=
  { s_video_initialized := false, s_video_lock := false,
    s_window := 0, s_renderer := 0, s_texture := 0,
    s_gfx_screen_ptr := 0, s_gfx_screen := fun _ => 0, s_palette := fun _ => 0,
    s_keyBufferLatest := 0,
    s_mousePosX := 0, s_mousePosY := 0,
    s_mouseButtonLeft := false, s_mouseButtonRight := false,
    s_mouseMinX := 0, s_mouseMaxX := 0, s_mouseMinY := 0, s_mouseMaxY := 0,
    g_fileOperation := 0, screen0 := screen0, events := events, calls := [], exited := false }

/-! ## Definitions that follow the wording of the specification -/

/-- The channel expansion `e` as the specification writes it: the product
`(c & 0x3F) * 0x41` shifted right by four. -/
def spec_expand (c : Nat) : Nat := ((c &&& 0x3F) * 0x41) >>> 4

/-- The clamp of one axis as the specification describes it: a bound of 0 is no limit on
its side, independently of the other side. -/
def spec_clamp (v lo hi : Nat) : Nat :=
  let v := if lo = 0 then v else max v lo
  if hi = 0 then v else min v hi

/-! ## Key translation -/

set_option maxRecDepth 100000 in
theorem s_SDL_keymap_length : s_SDL_keymap.length = 320 := by decide

set_option maxRecDepth 100000 in
theorem s_SDL_keymap_lt_128 : ∀ sym < 320, s_SDL_keymap.getD sym 0 < 128 := by decide

theorem s_SDL_keymap_byte (sym : Nat) : s_SDL_keymap.getD sym 0 < 128 := by
  by_cases h : sym < 320
  · exact s_SDL_keymap_lt_128 sym h
  · rw [List.getD_eq_default _ _ (by rw [s_SDL_keymap_length]; omega)]
    decide

theorem keymap_or_zero (sym : Nat) :
    (s_SDL_keymap.getD sym 0 ||| 0x0) % 256 = s_SDL_keymap.getD sym 0 := by
  have h := s_SDL_keymap_byte sym
  rw [Nat.or_zero]
  omega

theorem keymap_or_0x80 (sym : Nat) :
    (s_SDL_keymap.getD sym 0 ||| 0x80) % 256 = s_SDL_keymap.getD sym 0 ||| 0x80 := by
  have h := s_SDL_keymap_byte sym
  apply Nat.mod_eq_of_lt
  exact Nat.or_lt_two_pow (n := 8) (by omega) (by decide)

/-- C1: a key event whose symbol indexes a nonzero table entry forwards exactly one byte to
`Input_EventHandler` (and records it as the latest key): the entry itself on key-down, the
entry OR 0x80 on key-up. Inside the event loop of `Video_Tick` the event costs one poll and
that one callback, and the loop goes on with the rest of the queue. -/
theorem C1_mapped_key_forwarded (w : World) (k : Int)
    (hlt : toUInt32 k < 320) (hne : s_SDL_keymap.getD (toUInt32 k) 0 ≠ 0) :
    Video_Tick_dispatch w (SDL_Event.keyDown k)
        = { w with s_keyBufferLatest := s_SDL_keymap.getD (toUInt32 k) 0,
                   calls := w.calls ++ [Call.Input_EventHandler (s_SDL_keymap.getD (toUInt32 k) 0)] }
    ∧ Video_Tick_dispatch w (SDL_Event.keyUp k)
        = { w with s_keyBufferLatest := s_SDL_keymap.getD (toUInt32 k) 0 ||| 0x80,
                   calls := w.calls ++
                     [Call.Input_EventHandler (s_SDL_keymap.getD (toUInt32 k) 0 ||| 0x80)] }
    ∧ (∀ rest : List SDL_Event,
        Video_Tick_loop (SDL_Event.keyDown k :: rest) w
          = Video_Tick_loop rest
              { w with events := rest,
                       s_keyBufferLatest := s_SDL_keymap.getD (toUInt32 k) 0,
                       calls := w.calls ++ [Call.SDL_PollEvent,
                         Call.Input_EventHandler (s_SDL_keymap.getD (toUInt32 k) 0)] })
    ∧ (∀ rest : List SDL_Event,
        Video_Tick_loop (SDL_Event.keyUp k :: rest) w
          = Video_Tick_loop rest
              { w with events := rest,
                       s_keyBufferLatest := s_SDL_keymap.getD (toUInt32 k) 0 ||| 0x80,
                       calls := w.calls ++ [Call.SDL_PollEvent,
                         Call.Input_EventHandler (s_SDL_keymap.getD (toUInt32 k) 0 ||| 0x80)] }) := by
  have hlen : ¬ toUInt32 k ≥ s_SDL_keymap.length := by rw [s_SDL_keymap_length]; omega
  have hdown : ∀ v : World, Video_Tick_dispatch v (SDL_Event.keyDown k)
      = { v with s_keyBufferLatest := s_SDL_keymap.getD (toUInt32 k) 0,
                 calls := v.calls ++
                   [Call.Input_EventHandler (s_SDL_keymap.getD (toUInt32 k) 0)] } := by
    intro v
    simp only [Video_Tick_dispatch, Video_Tick_key, if_neg hlen, if_neg hne, Video_Key_Callback,
      World.call]
    rw [if_neg (by decide), keymap_or_zero]
  have hup : ∀ v : World, Video_Tick_dispatch v (SDL_Event.keyUp k)
      = { v with s_keyBufferLatest := s_SDL_keymap.getD (toUInt32 k) 0 ||| 0x80,
                 calls := v.calls ++
                   [Call.Input_EventHandler (s_SDL_keymap.getD (toUInt32 k) 0 ||| 0x80)] } := by
    intro v
    simp only [Video_Tick_dispatch, Video_Tick_key, if_neg hlen, if_neg hne, Video_Key_Callback,
      World.call]
    rw [if_pos (by decide), keymap_or_0x80]
  refine ⟨hdown w, hup w, ?_, ?_⟩
  · intro rest
    have step : Video_Tick_loop (SDL_Event.keyDown k :: rest) w
        = Video_Tick_loop rest
            (Video_Tick_dispatch (({ w with events := rest }).call Call.SDL_PollEvent)
              (SDL_Event.keyDown k)) := rfl
    rw [step, hdown]
    simp only [World.call, List.append_assoc, List.singleton_append]
  · intro rest
    have step : Video_Tick_loop (SDL_Event.keyUp k :: rest) w
        = Video_Tick_loop rest
            (Video_Tick_dispatch (({ w with events := rest }).call Call.SDL_PollEvent)
              (SDL_Event.keyUp k)) := rfl
    rw [step, hup]
    simp only [World.call, List.append_assoc, List.singleton_append]

/-- Witness of C1: the letter `a` (symbol 0x61, table entry 0x1E); the press forwards
0x1E, the release 0x9E. -/
theorem C1_mapped_key_forwarded_witness :
    toUInt32 0x61 < 320 ∧ s_SDL_keymap.getD (toUInt32 0x61) 0 ≠ 0
    ∧ (Video_Tick_dispatch (World.start (fun _ => 0) []) (SDL_Event.keyDown 0x61)).calls
        = [Call.Input_EventHandler 0x1E]
    ∧ (Video_Tick_dispatch (World.start (fun _ => 0) []) (SDL_Event.keyUp 0x61)).calls
        = [Call.Input_EventHandler 0x9E] :=
  ⟨by decide, by decide,
    (congrArg World.calls
      (C1_mapped_key_forwarded (World.start (fun _ => 0) []) 0x61 (by decide) (by decide)).1).trans
      (by decide),
    (congrArg World.calls
      (C1_mapped_key_forwarded (World.start (fun _ => 0) []) 0x61 (by decide)
        (by decide)).2.1).trans
      (by decide)⟩

/-- C2: a key-down or key-up event whose symbol is outside the table or indexes a zero entry
reaches no engine callback: the dispatch returns the state as it was, with at most a
`Warning` added to the log, the latest-key byte keeps its value, and the event loop goes
on with the remaining events. -/
theorem C2_unmapped_key_dropped (w : World) (k : Int) (e : SDL_Event) (rest : List SDL_Event)
    (he : e = SDL_Event.keyDown k ∨ e = SDL_Event.keyUp k)
    (h : toUInt32 k ≥ 320 ∨ s_SDL_keymap.getD (toUInt32 k) 0 = 0) :
    Video_Tick_dispatch w e
        = (if toUInt32 k ≥ 320 then w else w.call (Call.Warning (toUInt32 k)))
    ∧ (Video_Tick_dispatch w e).s_keyBufferLatest = w.s_keyBufferLatest
    ∧ ((Video_Tick_dispatch w e).calls = w.calls
        ∨ (Video_Tick_dispatch w e).calls = w.calls ++ [Call.Warning (toUInt32 k)])
    ∧ Video_Tick_loop (e :: rest) w
        = Video_Tick_loop rest
            (if toUInt32 k ≥ 320 then ({ w with events := rest }).call Call.SDL_PollEvent
             else (({ w with events := rest }).call Call.SDL_PollEvent).call
                    (Call.Warning (toUInt32 k))) := by
  have key : ∀ (v : World) (up : Nat), Video_Tick_key v up k
      = (if toUInt32 k ≥ 320 then v else v.call (Call.Warning (toUInt32 k))) := by
    intro v up
    unfold Video_Tick_key
    simp only [s_SDL_keymap_length]
    by_cases hge : toUInt32 k ≥ 320
    · simp only [if_pos hge]
    · have hz : s_SDL_keymap.getD (toUInt32 k) 0 = 0 := h.resolve_left hge
      simp only [if_neg hge, if_pos hz]
  have hd : ∀ v : World, Video_Tick_dispatch v e
      = (if toUInt32 k ≥ 320 then v else v.call (Call.Warning (toUInt32 k))) := by
    intro v
    rcases he with rfl | rfl
    · exact key v 0
    · exact key v 1
  refine ⟨hd w, ?_, ?_, ?_⟩
  · rw [hd w]; split <;> rfl
  · rw [hd w]; split
    · exact Or.inl rfl
    · exact Or.inr rfl
  · rw [← hd]
    rcases he with rfl | rfl <;> rfl

/-- Witness of C2: symbol 0x3A (a zero entry) on key-down, with a key-up of `a` queued
behind it. -/
theorem C2_unmapped_key_dropped_witness :
    (SDL_Event.keyDown 0x3A = SDL_Event.keyDown 0x3A ∨ SDL_Event.keyDown 0x3A = SDL_Event.keyUp 0x3A)
    ∧ (toUInt32 0x3A ≥ 320 ∨ s_SDL_keymap.getD (toUInt32 0x3A) 0 = 0)
    ∧ (Video_Tick_dispatch (World.start (fun _ => 0) []) (SDL_Event.keyDown 0x3A)).s_keyBufferLatest
        = (World.start (fun _ => 0) []).s_keyBufferLatest :=
  ⟨Or.inl rfl, Or.inr (by decide),
    (C2_unmapped_key_dropped (World.start (fun _ => 0) []) 0x3A (SDL_Event.keyDown 0x3A)
      [SDL_Event.keyUp 0x61] (Or.inl rfl) (Or.inr (by decide))).2.1⟩

/-! ## Palette entries -/

theorem and_0x3F_eq_mod (c : Nat) : c &&& 0x3F = c % 64 :=
  Nat.and_pow_two_sub_one_eq_mod c 6

theorem and_0xFF_eq_mod (c : Nat) : c &&& 0xFF = c % 256 :=
  Nat.and_pow_two_sub_one_eq_mod c 8

theorem red_channel : ∀ v < 64,
    ((v * 0x41) <<< 12) &&& 0x00ff0000 = ((v * 0x41) >>> 4) * 65536 := by decide

theorem green_channel : ∀ v < 64,
    ((v * 0x41) <<< 4) &&& 0x0000ff00 = ((v * 0x41) >>> 4) * 256 := by decide

theorem channel_lt : ∀ v < 64, (v * 0x41) >>> 4 < 256 := by decide

theorem channel_shift_form : ∀ v < 64, (v * 0x41) >>> 4 = (v <<< 2) ||| (v >>> 4) := by decide

theorem spec_expand_lt (c : Nat) : spec_expand c < 256 := by
  unfold spec_expand
  rw [and_0x3F_eq_mod]
  exact channel_lt _ (Nat.mod_lt _ (by decide))

/-- OR of the alpha byte and three channels in disjoint byte lanes is their sum. -/
theorem argb_or_eq_add (a b c : Nat) (ha : a < 256) (hb : b < 256) (hc : c < 256) :
    0xff000000 ||| a * 65536 ||| b * 256 ||| c = 0xff000000 + a * 65536 + b * 256 + c := by
  have h1 := Nat.mul_add_lt_is_or (i := 24) (b := a * 65536) (by omega) 255
  have h2 := Nat.mul_add_lt_is_or (i := 16) (b := b * 256) (by omega) (255 * 256 + a)
  have h3 := Nat.mul_add_lt_is_or (i := 8) (b := c) (by omega)
    ((255 * 256 + a) * 256 + b)
  have e1 : (0xff000000 : Nat) = 2 ^ 24 * 255 := by norm_num
  have e2 : 2 ^ 24 * 255 + a * 65536 = 2 ^ 16 * (255 * 256 + a) := by omega
  have e3 : 2 ^ 16 * (255 * 256 + a) + b * 256 = 2 ^ 8 * ((255 * 256 + a) * 256 + b) := by
    omega
  rw [e1, ← h1, e2, ← h2, e3, ← h3]

theorem Video_SetPalette_entry_eq_add (p0 p1 p2 : Nat) :
    Video_SetPalette_entry p0 p1 p2
      = 0xff000000 + spec_expand p0 * 65536 + spec_expand p1 * 256 + spec_expand p2 := by
  have h0 : p0 % 64 < 64 := Nat.mod_lt _ (by decide)
  have h1 : p1 % 64 < 64 := Nat.mod_lt _ (by decide)
  have h2 : p2 % 64 < 64 := Nat.mod_lt _ (by decide)
  unfold Video_SetPalette_entry spec_expand
  rw [and_0x3F_eq_mod, and_0x3F_eq_mod, and_0x3F_eq_mod, red_channel _ h0, green_channel _ h1]
  exact argb_or_eq_add _ _ _ (channel_lt _ h0) (channel_lt _ h1) (channel_lt _ h2)

theorem Video_SetPalette_entry_lt (p0 p1 p2 : Nat) :
    Video_SetPalette_entry p0 p1 p2 < 4294967296 := by
  have h0 := spec_expand_lt p0
  have h1 := spec_expand_lt p1
  have h2 := spec_expand_lt p2
  rw [Video_SetPalette_entry_eq_add]
  omega

/-- C3 as stated fails: for the input byte 63 every stored channel is 255, while bits 13..6
of the product `63 * 0x41 = 4095` are 63. -/
theorem C3_counterexample :
    (Video_SetPalette_entry 63 63 63 >>> 16) &&& 0xFF = 255
    ∧ (Video_SetPalette_entry 63 63 63 >>> 8) &&& 0xFF = 255
    ∧ Video_SetPalette_entry 63 63 63 &&& 0xFF = 255
    ∧ (((63 &&& 0x3F) * 0x41) >>> 6) &&& 0xFF = 63
    ∧ (Video_SetPalette_entry 63 63 63 >>> 16) &&& 0xFF ≠ (((63 &&& 0x3F) * 0x41) >>> 6) &&& 0xFF
    ∧ (Video_SetPalette_entry 63 63 63 >>> 8) &&& 0xFF ≠ (((63 &&& 0x3F) * 0x41) >>> 6) &&& 0xFF
    ∧ Video_SetPalette_entry 63 63 63 &&& 0xFF ≠ (((63 &&& 0x3F) * 0x41) >>> 6) &&& 0xFF := by
  decide

/-- C3 amended: for every input byte `c` the product `(c & 0x3F) * 0x41` is a 12-bit number
and each colour channel stored for `c` is its top eight bits, bits 11..4, that is the product
shifted right by four. -/
theorem C3_channel_is_bits_11_to_4 (r g b : Nat) :
    (r &&& 0x3F) * 0x41 < 2 ^ 12 ∧ (g &&& 0x3F) * 0x41 < 2 ^ 12 ∧ (b &&& 0x3F) * 0x41 < 2 ^ 12
    ∧ (Video_SetPalette_entry r g b >>> 16) &&& 0xFF = ((r &&& 0x3F) * 0x41) >>> 4
    ∧ (Video_SetPalette_entry r g b >>> 8) &&& 0xFF = ((g &&& 0x3F) * 0x41) >>> 4
    ∧ Video_SetPalette_entry r g b &&& 0xFF = ((b &&& 0x3F) * 0x41) >>> 4 := by
  have h0 := spec_expand_lt r
  have h1 := spec_expand_lt g
  have h2 := spec_expand_lt b
  have hlt : ∀ c : Nat, (c &&& 0x3F) * 0x41 < 2 ^ 12 := by
    intro c
    rw [and_0x3F_eq_mod]
    omega
  refine ⟨hlt r, hlt g, hlt b, ?_⟩
  show (Video_SetPalette_entry r g b >>> 16) &&& 0xFF = spec_expand r
    ∧ (Video_SetPalette_entry r g b >>> 8) &&& 0xFF = spec_expand g
    ∧ Video_SetPalette_entry r g b &&& 0xFF = spec_expand b
  rw [Video_SetPalette_entry_eq_add, and_0xFF_eq_mod, and_0xFF_eq_mod, and_0xFF_eq_mod,
    Nat.shiftRight_eq_div_pow, Nat.shiftRight_eq_div_pow]
  generalize spec_expand r = er at *
  generalize spec_expand g = eg at *
  generalize spec_expand b = eb at *
  refine ⟨?_, ?_, ?_⟩ <;> omega

theorem spec_expand_strictMono : ∀ v < 64, ∀ u < v, spec_expand u < spec_expand v := by
  decide

/-- C4: the value stored for an entry with bytes `R G B` is
`0xFF000000 | e(R)<<16 | e(G)<<8 | e(B)` with `e(c) = ((c & 0x3F) * 0x41) >> 4`, which is
`(v<<2)|(v>>4)` for `v = c & 0x3F`; it fits 32 bits, its alpha byte is 0xFF, each of the
other three bytes is `e` of its own input and so depends on the low six bits of that input
only, and `e` is strictly increasing on 0..63 from `e(0) = 0` to `e(63) = 255`. -/
theorem C4_entry_is_opaque_argb (R G B : Nat) :
    Video_SetPalette_entry R G B
        = 0xFF000000 ||| (spec_expand R <<< 16) ||| (spec_expand G <<< 8) ||| spec_expand B
    ∧ spec_expand R = ((R &&& 0x3F) <<< 2) ||| ((R &&& 0x3F) >>> 4)
    ∧ Video_SetPalette_entry R G B < 2 ^ 32
    ∧ Video_SetPalette_entry R G B >>> 24 = 0xFF
    ∧ (Video_SetPalette_entry R G B >>> 16) &&& 0xFF = spec_expand R
    ∧ (Video_SetPalette_entry R G B >>> 8) &&& 0xFF = spec_expand G
    ∧ Video_SetPalette_entry R G B &&& 0xFF = spec_expand B
    ∧ Video_SetPalette_entry R G B
        = Video_SetPalette_entry (R &&& 0x3F) (G &&& 0x3F) (B &&& 0x3F)
    ∧ (∀ u v : Nat, u < v → v ≤ 63 → spec_expand u < spec_expand v)
    ∧ spec_expand 0 = 0 ∧ spec_expand 63 = 255 := by
  have h0 := spec_expand_lt R
  have h1 := spec_expand_lt G
  have h2 := spec_expand_lt B
  have hidem : ∀ c : Nat, spec_expand (c &&& 0x3F) = spec_expand c := by
    intro c
    unfold spec_expand
    rw [and_0x3F_eq_mod, and_0x3F_eq_mod, Nat.mod_mod]
  refine ⟨?_, ?_, Video_SetPalette_entry_lt R G B, ?_, ?_, ?_, ?_, ?_, ?_, by decide, by decide⟩
  · rw [Video_SetPalette_entry_eq_add, Nat.shiftLeft_eq, Nat.shiftLeft_eq]
    exact (argb_or_eq_add _ _ _ h0 h1 h2).symm
  · unfold spec_expand
    rw [and_0x3F_eq_mod]
    exact channel_shift_form _ (Nat.mod_lt _ (by decide))
  · rw [Video_SetPalette_entry_eq_add, Nat.shiftRight_eq_div_pow]
    omega
  · rw [Video_SetPalette_entry_eq_add, and_0xFF_eq_mod, Nat.shiftRight_eq_div_pow]
    omega
  · rw [Video_SetPalette_entry_eq_add, and_0xFF_eq_mod, Nat.shiftRight_eq_div_pow]
    omega
  · rw [Video_SetPalette_entry_eq_add, and_0xFF_eq_mod]
    omega
  · rw [Video_SetPalette_entry_eq_add, Video_SetPalette_entry_eq_add, hidem, hidem, hidem]
  · intro u v huv hv
    exact spec_expand_strictMono v (by omega) u huv

/-! ## The palette loop -/

/-- Closed form of the palette loop when all its stores are inside the palette. -/
theorem Video_SetPalette_loop_eq (buf : Nat → Nat) (n : Nat) :
    ∀ (i off : Nat) (pal : Nat → Nat), i + n ≤ 256 →
      Video_SetPalette_loop buf n (i : Int) off pal
        = some (fun j => if i ≤ j ∧ j < i + n then
            Video_SetPalette_entry (buf (off + 3 * (j - i)) % 256)
              (buf (off + 3 * (j - i) + 1) % 256) (buf (off + 3 * (j - i) + 2) % 256)
          else pal j) := by
  induction n with
  | zero =>
    intro i off pal _
    simp only [Video_SetPalette_loop]
    congr 1
    funext j
    rw [if_neg (by omega)]
  | succ n ih =>
    intro i off pal hb
    have hi : (0 : Int) ≤ (i : Int) ∧ (i : Int) < 256 := by omega
    simp only [Video_SetPalette_loop, if_pos hi]
    have hcast : ((i : Int) + 1) = ((i + 1 : Nat) : Int) := by push_cast; rfl
    rw [hcast, ih (i + 1) (off + 3) _ (by omega)]
    congr 1
    funext j
    by_cases h1 : i + 1 ≤ j ∧ j < i + 1 + n
    · have h2 : i ≤ j ∧ j < i + (n + 1) := by omega
      have e : off + 3 + 3 * (j - (i + 1)) = off + 3 * (j - i) := by omega
      rw [if_pos h1, if_pos h2, e]
    · rw [if_neg h1]
      by_cases h3 : j = i
      · subst h3
        have h2 : j ≤ j ∧ j < j + (n + 1) := by omega
        rw [if_pos h2, Int.toNat_ofNat, Function.update_same]
        simp only [Nat.sub_self, Nat.mul_zero, Nat.add_zero]
      · have h2 : ¬ (i ≤ j ∧ j < i + (n + 1)) := by omega
        rw [if_neg h2, Int.toNat_ofNat, Function.update_noteq h3]

theorem Video_SetPalette_eq (w : World) (buf : Nat → Nat) (from_ length : Int)
    (hf : 0 ≤ from_) (hl : 0 ≤ length) (hb : from_ + length ≤ 256) :
    Video_SetPalette w buf from_ length
      = some { w with
          s_palette := fun j => if from_.toNat ≤ j ∧ j < from_.toNat + length.toNat then
              Video_SetPalette_entry (buf (3 * (j - from_.toNat)) % 256)
                (buf (3 * (j - from_.toNat) + 1) % 256) (buf (3 * (j - from_.toNat) + 2) % 256)
            else w.s_palette j,
          s_video_lock := false } := by
  have hfrom : from_ = ((from_.toNat : Nat) : Int) := (Int.toNat_of_nonneg hf).symm
  have h := Video_SetPalette_loop_eq buf length.toNat from_.toNat 0 w.s_palette (by omega)
  rw [← hfrom] at h
  simp only [Nat.zero_add] at h
  simp only [Video_SetPalette, h]

/-- A loop that runs at least once and finishes has stayed inside the palette. -/
theorem Video_SetPalette_loop_some (buf : Nat → Nat) (n : Nat) :
    ∀ (i : Int) (off : Nat) (pal pal' : Nat → Nat),
      Video_SetPalette_loop buf (n + 1) i off pal = some pal' → 0 ≤ i ∧ i + (n + 1 : Nat) ≤ 256 := by
  induction n with
  | zero =>
    intro i off pal pal' h
    by_cases hi : 0 ≤ i ∧ i < 256
    · omega
    · simp [Video_SetPalette_loop, hi] at h
  | succ n ih =>
    intro i off pal pal' h
    by_cases hi : 0 ≤ i ∧ i < 256
    · rw [Video_SetPalette_loop, if_pos hi] at h
      have := ih _ _ _ _ h
      omega
    · rw [Video_SetPalette_loop, if_neg hi] at h
      exact absurd h (by simp)

/-! ## The copy loop -/

theorem Video_DrawScreen_loop_eq (palette gfx_screen8 dst : Nat → Nat) (n : Nat) :
    Video_DrawScreen_loop palette gfx_screen8 n dst
      = fun i => if i < n then palette (gfx_screen8 i % 256) else dst i := by
  induction n with
  | zero =>
    funext i
    simp [Video_DrawScreen_loop]
  | succ n ih =>
    funext i
    rw [Video_DrawScreen_loop, ih]
    by_cases h : i = n
    · subst h
      rw [Function.update_same, if_pos (Nat.lt_succ_self _)]
    · rw [Function.update_noteq h]
      by_cases h1 : i < n
      · rw [if_pos h1, if_pos (by omega)]
      · rw [if_neg h1, if_neg (by omega)]

/-- C5: with `0 ≤ from`, `0 ≤ length` and `from + length ≤ 256` the call returns, index
`from + k` (for `k < length`) holds the entry built from buffer bytes `3k, 3k+1, 3k+2`,
every index outside `[from, from + length)` keeps its value, and apart from the palette only
the guard flag is written; a second call on the result obeys the same, so on an index both
calls cover the second call's value is the one stored. -/
theorem C5_setPalette_writes_exactly_range (w : World) (buf : Nat → Nat) (from_ length : Int)
    (hf : 0 ≤ from_) (hl : 0 ≤ length) (hb : from_ + length ≤ 256) :
    ∃ w1, Video_SetPalette w buf from_ length = some w1
      ∧ (∀ k : Nat, (k : Int) < length →
          w1.s_palette (from_.toNat + k)
            = Video_SetPalette_entry (buf (3 * k) % 256) (buf (3 * k + 1) % 256)
                (buf (3 * k + 2) % 256))
      ∧ (∀ j : Nat, (j : Int) < from_ ∨ from_ + length ≤ (j : Int) →
          w1.s_palette j = w.s_palette j)
      ∧ w1 = { w with s_palette := w1.s_palette, s_video_lock := false }
      ∧ (∀ (buf2 : Nat → Nat) (from2 length2 : Int),
          0 ≤ from2 → 0 ≤ length2 → from2 + length2 ≤ 256 →
          ∃ w2, Video_SetPalette w1 buf2 from2 length2 = some w2
            ∧ (∀ k : Nat, (k : Int) < length2 →
                w2.s_palette (from2.toNat + k)
                  = Video_SetPalette_entry (buf2 (3 * k) % 256) (buf2 (3 * k + 1) % 256)
                      (buf2 (3 * k + 2) % 256))
            ∧ (∀ j : Nat, (j : Int) < from2 ∨ from2 + length2 ≤ (j : Int) →
                w2.s_palette j = w1.s_palette j)) := by
  have main : ∀ (v : World) (b : Nat → Nat) (f l : Int), 0 ≤ f → 0 ≤ l → f + l ≤ 256 →
      ∃ v1, Video_SetPalette v b f l = some v1
        ∧ (∀ k : Nat, (k : Int) < l →
            v1.s_palette (f.toNat + k)
              = Video_SetPalette_entry (b (3 * k) % 256) (b (3 * k + 1) % 256)
                  (b (3 * k + 2) % 256))
        ∧ (∀ j : Nat, (j : Int) < f ∨ f + l ≤ (j : Int) → v1.s_palette j = v.s_palette j)
        ∧ v1 = { v with s_palette := v1.s_palette, s_video_lock := false } := by
    intro v b f l h0 h1 h2
    refine ⟨_, Video_SetPalette_eq v b f l h0 h1 h2, ?_, ?_, rfl⟩
    · intro k hk
      have hin : f.toNat ≤ f.toNat + k ∧ f.toNat + k < f.toNat + l.toNat := by omega
      simp only [if_pos hin, Nat.add_sub_cancel_left]
    · intro j hj
      have hout : ¬ (f.toNat ≤ j ∧ j < f.toNat + l.toNat) := by omega
      simp only [if_neg hout]
  obtain ⟨w1, h1, h2, h3, h4⟩ := main w buf from_ length hf hl hb
  refine ⟨w1, h1, h2, h3, h4, ?_⟩
  intro buf2 from2 length2 g0 g1 g2
  obtain ⟨w2, k1, k2, k3, _⟩ := main w1 buf2 from2 length2 g0 g1 g2
  exact ⟨w2, k1, k2, k3⟩

/-- Witness of C5: entries 10 and 11 of the initial palette are set from a buffer of
bytes 63. -/
theorem C5_setPalette_writes_exactly_range_witness :
    (0 : Int) ≤ 10 ∧ (0 : Int) ≤ 2 ∧ (10 : Int) + 2 ≤ 256
    ∧ ∃ w1, Video_SetPalette (World.start (fun _ => 0) []) (fun _ => 63) 10 2 = some w1
      ∧ w1.s_palette 11 = 0xFFFFFFFF ∧ w1.s_palette 12 = 0 :=
  ⟨by decide, by decide, by decide,
    (C5_setPalette_writes_exactly_range (World.start (fun _ => 0) []) (fun _ => 63) 10 2
      (by decide) (by decide) (by decide)).elim
      (fun w1 h => ⟨w1, h.1, (h.2.1 1 (by decide)).trans (by decide),
        (h.2.2.1 12 (Or.inr (by decide))).trans rfl⟩)⟩

theorem Video_SetPalette_some_bounds (w0 w : World) (buf : Nat → Nat) (from_ length : Int)
    (h : Video_SetPalette w0 buf from_ length = some w) (hpos : 0 < length) :
    0 ≤ from_ ∧ from_ + length ≤ 256 := by
  obtain ⟨n, hn⟩ : ∃ n, length.toNat = n + 1 := ⟨length.toNat - 1, by omega⟩
  unfold Video_SetPalette at h
  simp only [hn] at h
  cases hloop : Video_SetPalette_loop buf (n + 1) from_ 0 w0.s_palette with
  | none => simp [hloop] at h
  | some pal' =>
    have := Video_SetPalette_loop_some buf n from_ 0 _ _ hloop
    omega

/-- C6: `Video_DrawScreen` fills pixel `i` of the true-colour buffer, for every `i` below
320 * 200 = 64000, with the palette value of the byte at position `i` of the indexed screen,
and leaves the palette alone; when the state it runs in was produced by `Video_SetPalette`
for the range `[from, from + length)`, every pixel whose index lies in that range comes out
with alpha byte 0xFF. -/
theorem C6_drawScreen_looks_up_palette (w : World) :
    SCREEN_WIDTH * SCREEN_HEIGHT = 64000
    ∧ (∀ i : Nat, i < SCREEN_WIDTH * SCREEN_HEIGHT →
        (Video_DrawScreen w).s_gfx_screen i = w.s_palette (w.screen0 i % 256))
    ∧ (Video_DrawScreen w).s_palette = w.s_palette
    ∧ (∀ (w0 : World) (buf : Nat → Nat) (from_ length : Int),
        Video_SetPalette w0 buf from_ length = some w →
        ∀ i : Nat, i < SCREEN_WIDTH * SCREEN_HEIGHT →
          from_ ≤ ((w.screen0 i % 256 : Nat) : Int) →
          ((w.screen0 i % 256 : Nat) : Int) < from_ + length →
          (Video_DrawScreen w).s_gfx_screen i >>> 24 = 0xFF) := by
  have hpix : ∀ i : Nat, i < SCREEN_WIDTH * SCREEN_HEIGHT →
      (Video_DrawScreen w).s_gfx_screen i = w.s_palette (w.screen0 i % 256) := by
    intro i hi
    simp only [Video_DrawScreen, World.call, Video_DrawScreen_loop_eq, if_pos hi]
  refine ⟨rfl, hpix, rfl, ?_⟩
  intro w0 buf from_ length h i hi hlo hhi
  obtain ⟨hf, hb⟩ := Video_SetPalette_some_bounds w0 w buf from_ length h (by omega)
  rw [Video_SetPalette_eq w0 buf from_ length hf (by omega) hb] at h
  have hw := Option.some.inj h
  rw [hpix i hi]
  subst hw
  simp only at hlo hhi ⊢
  have hin : from_.toNat ≤ w0.screen0 i % 256
      ∧ w0.screen0 i % 256 < from_.toNat + length.toNat := by omega
  simp only [if_pos hin]
  generalize buf (3 * (w0.screen0 i % 256 - from_.toNat)) % 256 = r
  generalize buf (3 * (w0.screen0 i % 256 - from_.toNat) + 1) % 256 = g
  generalize buf (3 * (w0.screen0 i % 256 - from_.toNat) + 2) % 256 = b
  have h0 := spec_expand_lt r
  have h1 := spec_expand_lt g
  have h2 := spec_expand_lt b
  rw [Video_SetPalette_entry_eq_add, Nat.shiftRight_eq_div_pow]
  omega

/-! ## Mouse -/

/-- The two bound checks of one axis in `Video_Mouse_Move` compute the specified clamp. -/
theorem mouse_axis_eq_spec_clamp (v lo hi : Nat) :
    (if hi ≠ 0 ∧ (if lo ≠ 0 ∧ v < lo then lo else v) > hi then hi
      else (if lo ≠ 0 ∧ v < lo then lo else v)) = spec_clamp v lo hi := by
  unfold spec_clamp
  by_cases h1 : lo = 0 <;> by_cases h2 : hi = 0 <;> by_cases h3 : v < lo <;>
    by_cases h4 : v > hi <;> by_cases h5 : lo > hi <;>
    simp [h1, h2, h3, h4, h5] <;> omega

/-- On an axis whose bounds are not crossed the order of the two checks does not matter. -/
theorem spec_clamp_order_irrelevant (v lo hi : Nat) (h : lo = 0 ∨ hi = 0 ∨ lo ≤ hi) :
    spec_clamp v lo hi
      = (if lo = 0 then (if hi = 0 then v else min v hi)
          else max (if hi = 0 then v else min v hi) lo) := by
  unfold spec_clamp
  by_cases h1 : lo = 0 <;> by_cases h2 : hi = 0 <;> simp [h1, h2]
  omega

theorem spec_clamp_idem (v lo hi : Nat) :
    spec_clamp (spec_clamp v lo hi) lo hi = spec_clamp v lo hi := by
  unfold spec_clamp
  by_cases h1 : lo = 0 <;> by_cases h2 : hi = 0 <;> simp [h1, h2]
  omega

theorem Video_Mouse_Move_eq (w : World) (x y : Nat) :
    Video_Mouse_Move w x y
      = if x ≠ spec_clamp x w.s_mouseMinX w.s_mouseMaxX
            ∨ y ≠ spec_clamp y w.s_mouseMinY w.s_mouseMaxY then
          w.call (Call.SDL_WarpMouseInWindow w.s_window
            (spec_clamp x w.s_mouseMinX w.s_mouseMaxX) (spec_clamp y w.s_mouseMinY w.s_mouseMaxY))
        else
          ({ w with s_mousePosX := x, s_mousePosY := y }).call
            (Call.Mouse_EventHandler x y w.s_mouseButtonLeft w.s_mouseButtonRight) := by
  unfold Video_Mouse_Move
  simp only [mouse_axis_eq_spec_clamp]
  by_cases h : x ≠ spec_clamp x w.s_mouseMinX w.s_mouseMaxX
      ∨ y ≠ spec_clamp y w.s_mouseMinY w.s_mouseMaxY
  · rw [if_pos h, if_pos h]
  · rw [if_neg h, if_neg h]
    have hx : spec_clamp x w.s_mouseMinX w.s_mouseMaxX = x := by
      by_contra hne; exact h (Or.inl (Ne.symm hne))
    have hy : spec_clamp y w.s_mouseMinY w.s_mouseMaxY = y := by
      by_contra hne; exact h (Or.inr (Ne.symm hne))
    rw [hx, hy]
    rfl

/-- C7: let `(cx, cy)` be the per-axis clamp of `(x, y)` in which a bound of 0 is no limit.
When it differs from `(x, y)` the only effect of `Video_Mouse_Move` is one
`SDL_WarpMouseInWindow` to `(cx, cy)`: position and buttons stay, nothing is reported.
Otherwise `(x, y)` is stored and reported once with the buttons as they were, and no warp is
asked for. With region (10,100,0,0) the move (5,50) warps to (10,50) without storing and the
following move (10,50) is stored and reported. -/
theorem C7_mouse_move_warps_or_stores (w : World) (x y : Nat) :
    (if (spec_clamp x w.s_mouseMinX w.s_mouseMaxX, spec_clamp y w.s_mouseMinY w.s_mouseMaxY)
          ≠ (x, y) then
        Video_Mouse_Move w x y
          = { w with calls := w.calls ++ [Call.SDL_WarpMouseInWindow w.s_window
                (spec_clamp x w.s_mouseMinX w.s_mouseMaxX)
                (spec_clamp y w.s_mouseMinY w.s_mouseMaxY)] }
      else
        Video_Mouse_Move w x y
          = { w with s_mousePosX := x, s_mousePosY := y,
                     calls := w.calls ++ [Call.Mouse_EventHandler x y
                       w.s_mouseButtonLeft w.s_mouseButtonRight] })
    ∧ Video_Mouse_Move (Video_Mouse_SetRegion w 10 100 0 0) 5 50
        = { Video_Mouse_SetRegion w 10 100 0 0 with
              calls := w.calls ++ [Call.SDL_WarpMouseInWindow w.s_window 10 50] }
    ∧ Video_Mouse_Move (Video_Mouse_Move (Video_Mouse_SetRegion w 10 100 0 0) 5 50) 10 50
        = { Video_Mouse_SetRegion w 10 100 0 0 with
              s_mousePosX := 10, s_mousePosY := 50,
              calls := w.calls ++ [Call.SDL_WarpMouseInWindow w.s_window 10 50,
                Call.Mouse_EventHandler 10 50 w.s_mouseButtonLeft w.s_mouseButtonRight] } := by
  refine ⟨?_, ?_, ?_⟩
  · rw [Video_Mouse_Move_eq]
    by_cases h : (spec_clamp x w.s_mouseMinX w.s_mouseMaxX,
        spec_clamp y w.s_mouseMinY w.s_mouseMaxY) ≠ (x, y)
    · have h2 : x ≠ spec_clamp x w.s_mouseMinX w.s_mouseMaxX
          ∨ y ≠ spec_clamp y w.s_mouseMinY w.s_mouseMaxY := by
        by_contra hc
        push_neg at hc
        exact h (by rw [← hc.1, ← hc.2])
      rw [if_pos h, if_pos h2]
      rfl
    · have h2 : ¬ (x ≠ spec_clamp x w.s_mouseMinX w.s_mouseMaxX
          ∨ y ≠ spec_clamp y w.s_mouseMinY w.s_mouseMaxY) := by
        push_neg at h ⊢
        have := Prod.mk.inj h
        exact ⟨this.1.symm, this.2.symm⟩
      rw [if_neg h, if_neg h2]
      rfl
  · rfl
  · simp [Video_Mouse_Move, Video_Mouse_SetRegion, World.call, Video_Mouse_Callback]

/-- C8: when `Video_Mouse_Move` rejects `(x, y)` and asks for a warp to `(cx, cy)`, a move
to `(cx, cy)` under the same region is accepted: `(cx, cy)` is stored and reported and no
further warp is asked for. This holds for every region, also one with min above max,
because the clamp is idempotent. -/
theorem C8_warp_target_is_accepted (w : World) (x y cx cy : Nat)
    (h : Video_Mouse_Move w x y
      = { w with calls := w.calls ++ [Call.SDL_WarpMouseInWindow w.s_window cx cy] }) :
    Video_Mouse_Move (Video_Mouse_Move w x y) cx cy
        = { w with s_mousePosX := cx, s_mousePosY := cy,
                   calls := w.calls ++ [Call.SDL_WarpMouseInWindow w.s_window cx cy,
                     Call.Mouse_EventHandler cx cy w.s_mouseButtonLeft w.s_mouseButtonRight] }
    ∧ spec_clamp cx w.s_mouseMinX w.s_mouseMaxX = cx
    ∧ spec_clamp cy w.s_mouseMinY w.s_mouseMaxY = cy := by
  have hc : cx = spec_clamp x w.s_mouseMinX w.s_mouseMaxX
      ∧ cy = spec_clamp y w.s_mouseMinY w.s_mouseMaxY := by
    have h1 := h
    rw [Video_Mouse_Move_eq] at h1
    split at h1
    · have h2 := congrArg World.calls h1
      simp only [World.call] at h2
      have h3 := List.append_cancel_left h2
      simp only [List.cons.injEq, Call.SDL_WarpMouseInWindow.injEq, and_true, true_and] at h3
      exact ⟨h3.1.symm, h3.2.symm⟩
    · have h2 := congrArg World.calls h1
      simp only [World.call] at h2
      have h3 := List.append_cancel_left h2
      simp at h3
  have ix := spec_clamp_idem x w.s_mouseMinX w.s_mouseMaxX
  have iy := spec_clamp_idem y w.s_mouseMinY w.s_mouseMaxY
  rw [← hc.1] at ix
  rw [← hc.2] at iy
  refine ⟨?_, ix, iy⟩
  rw [h, Video_Mouse_Move_eq]
  simp only [ix, iy, World.call]
  simp

/-- Witness of C8: a region with min above max, (100, 10, 0, 0); the move (5, 7) is answered
by a warp to (10, 7), and the move (10, 7) is then stored. -/
theorem C8_warp_target_is_accepted_witness :
    Video_Mouse_Move (Video_Mouse_SetRegion (World.start (fun _ => 0) []) 100 10 0 0) 5 7
      = { Video_Mouse_SetRegion (World.start (fun _ => 0) []) 100 10 0 0 with
            calls := [Call.SDL_WarpMouseInWindow 0 10 7] }
    ∧ (Video_Mouse_Move
        (Video_Mouse_Move (Video_Mouse_SetRegion (World.start (fun _ => 0) []) 100 10 0 0) 5 7)
        10 7).s_mousePosX = 10 :=
  ⟨rfl, (congrArg World.s_mousePosX
    (C8_warp_target_is_accepted (Video_Mouse_SetRegion (World.start (fun _ => 0) []) 100 10 0 0)
      5 7 10 7 rfl).1).trans rfl⟩

/-- C9: once the region is set to (0,0,0,0), `Video_Mouse_Move` stores every `(x, y)` as it
is and reports it once with the buttons as they were; the log gains that report and nothing
else, so no warp is asked for. -/
theorem C9_unbounded_region_passes_through (w : World) (x y : Nat) :
    Video_Mouse_Move (Video_Mouse_SetRegion w 0 0 0 0) x y
        = { Video_Mouse_SetRegion w 0 0 0 0 with
              s_mousePosX := x, s_mousePosY := y,
              calls := w.calls ++ [Call.Mouse_EventHandler x y
                w.s_mouseButtonLeft w.s_mouseButtonRight] }
    ∧ (Video_Mouse_Move (Video_Mouse_SetRegion w 0 0 0 0) x y).s_mousePosX = x
    ∧ (Video_Mouse_Move (Video_Mouse_SetRegion w 0 0 0 0) x y).s_mousePosY = y
    ∧ (∀ win cx cy, Call.SDL_WarpMouseInWindow win cx cy
          ∈ (Video_Mouse_Move (Video_Mouse_SetRegion w 0 0 0 0) x y).calls →
        Call.SDL_WarpMouseInWindow win cx cy ∈ w.calls) := by
  have h : Video_Mouse_Move (Video_Mouse_SetRegion w 0 0 0 0) x y
      = { Video_Mouse_SetRegion w 0 0 0 0 with
            s_mousePosX := x, s_mousePosY := y,
            calls := w.calls ++ [Call.Mouse_EventHandler x y
              w.s_mouseButtonLeft w.s_mouseButtonRight] } := by
    simp [Video_Mouse_Move, Video_Mouse_SetRegion, World.call, Video_Mouse_Callback]
  refine ⟨h, by rw [h], by rw [h], ?_⟩
  intro win cx cy hmem
  rw [h] at hmem
  simpa using hmem

/-! ## The tick -/

/-- C10: when `g_fileOperation` is nonzero, or the guard flag is held, or video is not
initialised, `Video_Tick` returns the state it was given: no event leaves the queue, the log
of outside calls (polls, engine callbacks, draw, present) gains nothing, and no static
variable, the guard flag included, changes. -/
theorem C10_tick_is_noop_when_blocked (w : World)
    (h : w.g_fileOperation ≠ 0 ∨ w.s_video_lock = true ∨ w.s_video_initialized = false) :
    Video_Tick w = w := by
  unfold Video_Tick
  rcases h with h | h | h
  · by_cases hi : w.s_video_initialized = true
    · simp [hi, h]
    · simp [hi]
  · by_cases hi : w.s_video_initialized = true
    · by_cases hf : w.g_fileOperation = 0
      · simp [hi, h, hf]
      · simp [hi, hf]
    · simp [hi]
  · simp [h]

/-- Witness of C10: an initialised driver with a key press waiting and `g_fileOperation`
set to 1. -/
theorem C10_tick_is_noop_when_blocked_witness :
    ((1 : Nat) ≠ 0 ∨ false = true ∨ true = false)
    ∧ Video_Tick { World.start (fun _ => 0) [SDL_Event.keyDown 0x61] with
          s_video_initialized := true, g_fileOperation := 1 }
      = { World.start (fun _ => 0) [SDL_Event.keyDown 0x61] with
          s_video_initialized := true, g_fileOperation := 1 } :=
  ⟨Or.inl (by decide),
    C10_tick_is_noop_when_blocked
      { World.start (fun _ => 0) [SDL_Event.keyDown 0x61] with
          s_video_initialized := true, g_fileOperation := 1 }
      (Or.inl (by decide))⟩

/-! ## Region and buttons -/

/-- C12: `Video_Mouse_SetRegion` stores the four given bounds and writes nothing else: the
stored position, the button flags and the log of outside calls (reports, warps) are as
before, so the stored position is not clamped after the fact; the next `Video_Mouse_Move`
is decided by the new bounds alone. -/
theorem C12_setRegion_replaces_bounds_only (w : World) (minX maxX minY maxY x y : Nat) :
    Video_Mouse_SetRegion w minX maxX minY maxY
        = { w with s_mouseMinX := minX, s_mouseMaxX := maxX,
                   s_mouseMinY := minY, s_mouseMaxY := maxY }
    ∧ (Video_Mouse_SetRegion w minX maxX minY maxY).s_mouseMinX = minX
    ∧ (Video_Mouse_SetRegion w minX maxX minY maxY).s_mouseMaxX = maxX
    ∧ (Video_Mouse_SetRegion w minX maxX minY maxY).s_mouseMinY = minY
    ∧ (Video_Mouse_SetRegion w minX maxX minY maxY).s_mouseMaxY = maxY
    ∧ (Video_Mouse_SetRegion w minX maxX minY maxY).s_mousePosX = w.s_mousePosX
    ∧ (Video_Mouse_SetRegion w minX maxX minY maxY).s_mousePosY = w.s_mousePosY
    ∧ (Video_Mouse_SetRegion w minX maxX minY maxY).s_mouseButtonLeft = w.s_mouseButtonLeft
    ∧ (Video_Mouse_SetRegion w minX maxX minY maxY).s_mouseButtonRight = w.s_mouseButtonRight
    ∧ (Video_Mouse_SetRegion w minX maxX minY maxY).calls = w.calls
    ∧ Video_Mouse_Move (Video_Mouse_SetRegion w minX maxX minY maxY) x y
        = (if x ≠ spec_clamp x minX maxX ∨ y ≠ spec_clamp y minY maxY then
            { Video_Mouse_SetRegion w minX maxX minY maxY with
                calls := w.calls ++ [Call.SDL_WarpMouseInWindow w.s_window
                  (spec_clamp x minX maxX) (spec_clamp y minY maxY)] }
          else
            { Video_Mouse_SetRegion w minX maxX minY maxY with
                s_mousePosX := x, s_mousePosY := y,
                calls := w.calls ++ [Call.Mouse_EventHandler x y
                  w.s_mouseButtonLeft w.s_mouseButtonRight] }) := by
  refine ⟨rfl, rfl, rfl, rfl, rfl, rfl, rfl, rfl, rfl, rfl, ?_⟩
  rw [Video_Mouse_Move_eq]
  rfl

/-- C13: `Video_Mouse_Button` writes `down` to the left flag when `left` holds and to the
right flag otherwise, leaves the other flag and the stored position alone, and reports once
with the stored position and the new flags. In the `switch` of `Video_Tick` a button-down
event of the left (right) button is `Video_Mouse_Button` with `(true, true)`
(`(false, true)`), a button-up event is the same with `down = false`, and an event of any
other button returns the state as it was, so it reports nothing. -/
theorem C13_mouse_button_sets_flag_and_reports (w : World) (left down : Bool) (button : Nat) :
    Video_Mouse_Button w left down
        = (if left then
            { w with s_mouseButtonLeft := down,
                     calls := w.calls ++ [Call.Mouse_EventHandler w.s_mousePosX w.s_mousePosY
                       down w.s_mouseButtonRight] }
          else
            { w with s_mouseButtonRight := down,
                     calls := w.calls ++ [Call.Mouse_EventHandler w.s_mousePosX w.s_mousePosY
                       w.s_mouseButtonLeft down] })
    ∧ Video_Tick_dispatch w (SDL_Event.mouseButtonDown button)
        = (if button = SDL_BUTTON_LEFT then Video_Mouse_Button w true true
          else if button = SDL_BUTTON_RIGHT then Video_Mouse_Button w false true
          else w)
    ∧ Video_Tick_dispatch w (SDL_Event.mouseButtonUp button)
        = (if button = SDL_BUTTON_LEFT then Video_Mouse_Button w true false
          else if button = SDL_BUTTON_RIGHT then Video_Mouse_Button w false false
          else w) := by
  have hne : ∀ b : Nat, b = SDL_BUTTON_LEFT → ¬ b = SDL_BUTTON_RIGHT := by
    intro b hb hr
    rw [hb] at hr
    exact absurd hr (by decide)
  refine ⟨?_, ?_, ?_⟩
  · cases left <;> rfl
  · by_cases h : button = SDL_BUTTON_LEFT
    · simp only [Video_Tick_dispatch, if_pos h, if_neg (hne button h)]
    · simp only [Video_Tick_dispatch, if_neg h]
  · by_cases h : button = SDL_BUTTON_LEFT
    · simp only [Video_Tick_dispatch, if_pos h, if_neg (hne button h)]
    · simp only [Video_Tick_dispatch, if_neg h]

/-! ## Rejected keys and the make/break bit -/

theorem Video_Tick_key_mapped (v : World) (keyup : Nat) (k : Int)
    (hlt : toUInt32 k < 320) (hne : s_SDL_keymap.getD (toUInt32 k) 0 ≠ 0) :
    Video_Tick_key v keyup k
      = Video_Key_Callback v
          ((s_SDL_keymap.getD (toUInt32 k) 0 ||| (if keyup ≠ 0 then 0x80 else 0x0)) % 256) := by
  have hlen : ¬ toUInt32 k ≥ s_SDL_keymap.length := by rw [s_SDL_keymap_length]; omega
  simp only [Video_Tick_key, if_neg hlen, if_neg hne]

theorem Video_Tick_key_zero_entry (v : World) (keyup : Nat) (k : Int)
    (hlt : toUInt32 k < 320) (hz : s_SDL_keymap.getD (toUInt32 k) 0 = 0) :
    Video_Tick_key v keyup k = v.call (Call.Warning (toUInt32 k)) := by
  have hlen : ¬ toUInt32 k ≥ s_SDL_keymap.length := by rw [s_SDL_keymap_length]; omega
  simp only [Video_Tick_key, if_neg hlen, if_pos hz]

theorem Video_Tick_key_out_of_range (v : World) (keyup : Nat) (k : Int)
    (hge : toUInt32 k ≥ 320) : Video_Tick_key v keyup k = v := by
  have hlen : toUInt32 k ≥ s_SDL_keymap.length := by rw [s_SDL_keymap_length]; omega
  simp only [Video_Tick_key, if_pos hlen]

theorem Video_Tick_loop_cons_key (w : World) (e : SDL_Event) (rest : List SDL_Event) (k : Int)
    (he : e = SDL_Event.keyDown k ∨ e = SDL_Event.keyUp k) :
    Video_Tick_loop (e :: rest) w
      = Video_Tick_loop rest
          (Video_Tick_dispatch (({ w with events := rest }).call Call.SDL_PollEvent) e) := by
  rcases he with rfl | rfl <;> rfl

set_option maxRecDepth 100000 in
/-- C15 as stated fails: the key F1 of SDL 2 has symbol 0x4000003A, which is outside the
table; a tick of an initialised driver with its key-down event queued polls twice, draws
and presents, and logs no warning. -/
theorem C15_counterexample :
    toUInt32 0x4000003A ≥ s_SDL_keymap.length
    ∧ (Video_Tick_dispatch (World.start (fun _ => 0) []) (SDL_Event.keyDown 0x4000003A)).calls
        = []
    ∧ (Video_Tick { World.start (fun _ => 0) [SDL_Event.keyDown 0x4000003A] with
          s_video_initialized := true }).calls
        = [Call.SDL_PollEvent, Call.SDL_PollEvent, Call.GFX_Screen_Get_ByIndex,
            Call.SDL_UpdateTexture 0, Call.SDL_RenderCopy 0 0, Call.SDL_RenderPresent 0]
    ∧ ¬ (∃ sym, Call.Warning sym
          ∈ (Video_Tick { World.start (fun _ => 0) [SDL_Event.keyDown 0x4000003A] with
              s_video_initialized := true }).calls) := by
  have hcalls : (Video_Tick { World.start (fun _ => 0) [SDL_Event.keyDown 0x4000003A] with
          s_video_initialized := true }).calls
        = [Call.SDL_PollEvent, Call.SDL_PollEvent, Call.GFX_Screen_Get_ByIndex,
            Call.SDL_UpdateTexture 0, Call.SDL_RenderCopy 0 0, Call.SDL_RenderPresent 0] := by
    decide
  refine ⟨by decide, by decide, hcalls, ?_⟩
  rw [hcalls]
  simp

/-- C15 amended: a key event whose symbol is inside the table and indexes a zero entry is
answered by one `Warning` and nothing else before the loop goes on; a key event whose symbol
is outside the table is dropped with no warning and no other effect. -/
theorem C15_warning_only_for_zero_entry (w : World) (k : Int) (e : SDL_Event)
    (rest : List SDL_Event) (he : e = SDL_Event.keyDown k ∨ e = SDL_Event.keyUp k) :
    (toUInt32 k < 320 → s_SDL_keymap.getD (toUInt32 k) 0 = 0 →
        Video_Tick_dispatch w e = w.call (Call.Warning (toUInt32 k))
        ∧ Video_Tick_loop (e :: rest) w
            = Video_Tick_loop rest
                ((({ w with events := rest }).call Call.SDL_PollEvent).call
                  (Call.Warning (toUInt32 k))))
    ∧ (toUInt32 k ≥ 320 →
        Video_Tick_dispatch w e = w
        ∧ Video_Tick_loop (e :: rest) w
            = Video_Tick_loop rest (({ w with events := rest }).call Call.SDL_PollEvent)) := by
  rcases he with rfl | rfl
  · refine ⟨fun hlt hz => ⟨?_, ?_⟩, fun hge => ⟨?_, ?_⟩⟩
    · simp only [Video_Tick_dispatch]
      rw [Video_Tick_key_zero_entry _ _ _ hlt hz]
    · rw [Video_Tick_loop_cons_key w _ rest k (Or.inl rfl)]
      simp only [Video_Tick_dispatch]
      rw [Video_Tick_key_zero_entry _ _ _ hlt hz]
    · simp only [Video_Tick_dispatch]
      rw [Video_Tick_key_out_of_range _ _ _ hge]
    · rw [Video_Tick_loop_cons_key w _ rest k (Or.inl rfl)]
      simp only [Video_Tick_dispatch]
      rw [Video_Tick_key_out_of_range _ _ _ hge]
  · refine ⟨fun hlt hz => ⟨?_, ?_⟩, fun hge => ⟨?_, ?_⟩⟩
    · simp only [Video_Tick_dispatch]
      rw [Video_Tick_key_zero_entry _ _ _ hlt hz]
    · rw [Video_Tick_loop_cons_key w _ rest k (Or.inr rfl)]
      simp only [Video_Tick_dispatch]
      rw [Video_Tick_key_zero_entry _ _ _ hlt hz]
    · simp only [Video_Tick_dispatch]
      rw [Video_Tick_key_out_of_range _ _ _ hge]
    · rw [Video_Tick_loop_cons_key w _ rest k (Or.inr rfl)]
      simp only [Video_Tick_dispatch]
      rw [Video_Tick_key_out_of_range _ _ _ hge]

/-- Witness of the amended C15: key-down of symbol 0x3A (inside the table, entry 0) is
answered by `Warning 0x3A`; key-up of F1 (outside the table) leaves the log empty. -/
theorem C15_warning_only_for_zero_entry_witness :
    (Video_Tick_dispatch (World.start (fun _ => 0) []) (SDL_Event.keyDown 0x3A)).calls
        = [Call.Warning 0x3A]
    ∧ (Video_Tick_dispatch (World.start (fun _ => 0) []) (SDL_Event.keyUp 0x4000003A)).calls
        = [] :=
  ⟨(congrArg World.calls
      ((C15_warning_only_for_zero_entry (World.start (fun _ => 0) []) 0x3A
        (SDL_Event.keyDown 0x3A) [] (Or.inl rfl)).1 (by decide) (by decide)).1).trans (by decide),
    (congrArg World.calls
      ((C15_warning_only_for_zero_entry (World.start (fun _ => 0) []) 0x4000003A
        (SDL_Event.keyUp 0x4000003A) [] (Or.inr rfl)).2 (by decide)).1).trans (by decide)⟩

set_option maxRecDepth 100000 in
theorem s_SDL_keymap_all_lt_0x80 : ∀ e ∈ s_SDL_keymap, e < 0x80 := by decide

theorem make_break_bits : ∀ e < 0x80,
    e &&& 0x80 = 0 ∧ (e ||| 0x80) &&& 0x80 = 0x80 ∧ e ≠ (e ||| 0x80)
      ∧ (e ||| 0x80) &&& 0x7F = e ∧ (e ||| 0x80) < 256 := by decide

/-- C17: every entry of `s_SDL_keymap` is below 0x80. So for a key whose symbol indexes a
nonzero entry, the byte forwarded on key-down is that entry, nonzero and with bit 7 clear,
the byte forwarded on key-up is the entry OR 0x80, with bit 7 set; the two differ, and the
key-up byte AND 0x7F is the key-down byte. -/
theorem C17_keymap_entries_below_0x80 (w : World) (k : Int) :
    (∀ e ∈ s_SDL_keymap, e < 0x80)
    ∧ (∀ sym : Nat, s_SDL_keymap.getD sym 0 < 0x80)
    ∧ (toUInt32 k < 320 → s_SDL_keymap.getD (toUInt32 k) 0 ≠ 0 →
        ∃ press release : Nat,
          (Video_Tick_dispatch w (SDL_Event.keyDown k)).calls
              = w.calls ++ [Call.Input_EventHandler press]
          ∧ (Video_Tick_dispatch w (SDL_Event.keyUp k)).calls
              = w.calls ++ [Call.Input_EventHandler release]
          ∧ press = s_SDL_keymap.getD (toUInt32 k) 0
          ∧ release = s_SDL_keymap.getD (toUInt32 k) 0 ||| 0x80
          ∧ press &&& 0x80 = 0 ∧ press ≠ 0
          ∧ release &&& 0x80 = 0x80
          ∧ press ≠ release
          ∧ release &&& 0x7F = press) := by
  refine ⟨s_SDL_keymap_all_lt_0x80, s_SDL_keymap_byte, ?_⟩
  intro hlt hne
  have hb := make_break_bits _ (s_SDL_keymap_byte (toUInt32 k))
  refine ⟨_, _, ?_, ?_, rfl, rfl, hb.1, hne, hb.2.1, hb.2.2.1, hb.2.2.2.1⟩
  · simp only [Video_Tick_dispatch]
    rw [Video_Tick_key_mapped w 0 k hlt hne, if_neg (by decide), keymap_or_zero]
    rfl
  · simp only [Video_Tick_dispatch]
    rw [Video_Tick_key_mapped w 1 k hlt hne, if_pos (by decide), keymap_or_0x80]
    rfl

/-- C18: on a region whose axes are each well-formed (min is 0, or max is 0, or
min ≤ max), a move that `Video_Mouse_Move` accepts stores a position inside the region.
Without well-formedness this fails: with bounds (100, 10) on x, the position 10, below the
minimum, is accepted and stored. -/
theorem C18_accepted_position_is_inside (w : World) (x y : Nat)
    (hx : w.s_mouseMinX = 0 ∨ w.s_mouseMaxX = 0 ∨ w.s_mouseMinX ≤ w.s_mouseMaxX)
    (hy : w.s_mouseMinY = 0 ∨ w.s_mouseMaxY = 0 ∨ w.s_mouseMinY ≤ w.s_mouseMaxY)
    (hacc : Video_Mouse_Move w x y
      = { w with s_mousePosX := x, s_mousePosY := y,
                 calls := w.calls ++ [Call.Mouse_EventHandler x y
                   w.s_mouseButtonLeft w.s_mouseButtonRight] }) :
    (Video_Mouse_Move w x y).s_mousePosX = x
    ∧ (Video_Mouse_Move w x y).s_mousePosY = y
    ∧ (w.s_mouseMinX = 0 ∨ (Video_Mouse_Move w x y).s_mousePosX ≥ w.s_mouseMinX)
    ∧ (w.s_mouseMaxX = 0 ∨ (Video_Mouse_Move w x y).s_mousePosX ≤ w.s_mouseMaxX)
    ∧ (w.s_mouseMinY = 0 ∨ (Video_Mouse_Move w x y).s_mousePosY ≥ w.s_mouseMinY)
    ∧ (w.s_mouseMaxY = 0 ∨ (Video_Mouse_Move w x y).s_mousePosY ≤ w.s_mouseMaxY)
    ∧ (∀ w0 : World,
        Video_Mouse_Move (Video_Mouse_SetRegion w0 100 10 0 0) 10 5
          = { Video_Mouse_SetRegion w0 100 10 0 0 with
                s_mousePosX := 10, s_mousePosY := 5,
                calls := w0.calls ++ [Call.Mouse_EventHandler 10 5
                  w0.s_mouseButtonLeft w0.s_mouseButtonRight] }) := by
  have hc : x = spec_clamp x w.s_mouseMinX w.s_mouseMaxX
      ∧ y = spec_clamp y w.s_mouseMinY w.s_mouseMaxY := by
    have h1 := hacc
    rw [Video_Mouse_Move_eq] at h1
    split at h1
    · have h2 := congrArg World.calls h1
      simp only [World.call] at h2
      have h3 := List.append_cancel_left h2
      simp at h3
    · rename_i hn
      push_neg at hn
      exact hn
  have bx : (w.s_mouseMinX = 0 ∨ x ≥ w.s_mouseMinX) ∧ (w.s_mouseMaxX = 0 ∨ x ≤ w.s_mouseMaxX) := by
    have h := hc.1
    unfold spec_clamp at h
    by_cases h1 : w.s_mouseMinX = 0 <;> by_cases h2 : w.s_mouseMaxX = 0 <;>
      simp [h1, h2] at h ⊢ <;> omega
  have by_ : (w.s_mouseMinY = 0 ∨ y ≥ w.s_mouseMinY) ∧ (w.s_mouseMaxY = 0 ∨ y ≤ w.s_mouseMaxY) := by
    have h := hc.2
    unfold spec_clamp at h
    by_cases h1 : w.s_mouseMinY = 0 <;> by_cases h2 : w.s_mouseMaxY = 0 <;>
      simp [h1, h2] at h ⊢ <;> omega
  rw [hacc]
  refine ⟨rfl, rfl, bx.1, bx.2, by_.1, by_.2, ?_⟩
  intro w0
  simp [Video_Mouse_Move, Video_Mouse_SetRegion, World.call, Video_Mouse_Callback]

/-- Witness of C18: region (10, 100, 0, 0); the move (10, 50) is accepted and 10 lies in
[10, 100]. -/
theorem C18_accepted_position_is_inside_witness :
    ((Video_Mouse_SetRegion (World.start (fun _ => 0) []) 10 100 0 0).s_mouseMinX = 0
      ∨ (Video_Mouse_Move (Video_Mouse_SetRegion (World.start (fun _ => 0) []) 10 100 0 0)
          10 50).s_mousePosX
        ≥ (Video_Mouse_SetRegion (World.start (fun _ => 0) []) 10 100 0 0).s_mouseMinX)
    ∧ (Video_Mouse_Move (Video_Mouse_SetRegion (World.start (fun _ => 0) []) 10 100 0 0)
        10 50).s_mousePosX = 10 :=
  ⟨(C18_accepted_position_is_inside
      (Video_Mouse_SetRegion (World.start (fun _ => 0) []) 10 100 0 0) 10 50
      (Or.inr (Or.inr (by decide))) (Or.inl rfl) rfl).2.2.1,
    rfl⟩

/-! ## What the event loop leaves alone -/

/-- The `switch` writes neither the guard flag nor the exit mark, the queue, the renderer
or the texture, and the calls it adds are neither drawing nor presenting. -/
theorem Video_Tick_dispatch_frame (w : World) (e : SDL_Event) :
    (Video_Tick_dispatch w e).s_video_lock = w.s_video_lock
    ∧ (Video_Tick_dispatch w e).exited = w.exited
    ∧ (Video_Tick_dispatch w e).events = w.events
    ∧ (Video_Tick_dispatch w e).s_renderer = w.s_renderer
    ∧ (Video_Tick_dispatch w e).s_texture = w.s_texture
    ∧ ∃ ext, (Video_Tick_dispatch w e).calls = w.calls ++ ext
        ∧ ∀ c ∈ ext, Call.isDrawOrPresent c = false := by
  have nil : ∃ ext, w.calls = w.calls ++ ext ∧ ∀ c ∈ ext, Call.isDrawOrPresent c = false :=
    ⟨[], (List.append_nil _).symm, by simp⟩
  have button : ∀ left down : Bool,
      (Video_Mouse_Button w left down).s_video_lock = w.s_video_lock
      ∧ (Video_Mouse_Button w left down).exited = w.exited
      ∧ (Video_Mouse_Button w left down).events = w.events
      ∧ (Video_Mouse_Button w left down).s_renderer = w.s_renderer
      ∧ (Video_Mouse_Button w left down).s_texture = w.s_texture
      ∧ ∃ ext, (Video_Mouse_Button w left down).calls = w.calls ++ ext
          ∧ ∀ c ∈ ext, Call.isDrawOrPresent c = false := by
    intro left down
    cases left
    · exact ⟨rfl, rfl, rfl, rfl, rfl, _, rfl, by simp [Call.isDrawOrPresent]⟩
    · exact ⟨rfl, rfl, rfl, rfl, rfl, _, rfl, by simp [Call.isDrawOrPresent]⟩
  have key : ∀ (up : Nat) (k : Int),
      (Video_Tick_key w up k).s_video_lock = w.s_video_lock
      ∧ (Video_Tick_key w up k).exited = w.exited
      ∧ (Video_Tick_key w up k).events = w.events
      ∧ (Video_Tick_key w up k).s_renderer = w.s_renderer
      ∧ (Video_Tick_key w up k).s_texture = w.s_texture
      ∧ ∃ ext, (Video_Tick_key w up k).calls = w.calls ++ ext
          ∧ ∀ c ∈ ext, Call.isDrawOrPresent c = false := by
    intro up k
    unfold Video_Tick_key
    simp only
    split
    · exact ⟨rfl, rfl, rfl, rfl, rfl, nil⟩
    · split
      · exact ⟨rfl, rfl, rfl, rfl, rfl, _, rfl, by simp [Call.isDrawOrPresent]⟩
      · exact ⟨rfl, rfl, rfl, rfl, rfl, _, rfl, by simp [Call.isDrawOrPresent]⟩
  cases e with
  | quit => exact ⟨rfl, rfl, rfl, rfl, rfl, nil⟩
  | other t => exact ⟨rfl, rfl, rfl, rfl, rfl, nil⟩
  | keyDown k => exact key 0 k
  | keyUp k => exact key 1 k
  | mouseMotion x y =>
    simp only [Video_Tick_dispatch]
    rw [Video_Mouse_Move_eq]
    split
    · exact ⟨rfl, rfl, rfl, rfl, rfl, _, rfl, by simp [Call.isDrawOrPresent]⟩
    · exact ⟨rfl, rfl, rfl, rfl, rfl, _, rfl, by simp [Call.isDrawOrPresent]⟩
  | mouseButtonDown b =>
    simp only [Video_Tick_dispatch]
    by_cases h1 : b = SDL_BUTTON_LEFT
    · have h2 : ¬ b = SDL_BUTTON_RIGHT := by rw [h1]; decide
      rw [if_pos h1, if_neg h2]
      exact button true true
    · rw [if_neg h1]
      by_cases h2 : b = SDL_BUTTON_RIGHT
      · rw [if_pos h2]; exact button false true
      · rw [if_neg h2]; exact ⟨rfl, rfl, rfl, rfl, rfl, nil⟩
  | mouseButtonUp b =>
    simp only [Video_Tick_dispatch]
    by_cases h1 : b = SDL_BUTTON_LEFT
    · have h2 : ¬ b = SDL_BUTTON_RIGHT := by rw [h1]; decide
      rw [if_pos h1, if_neg h2]
      exact button true false
    · rw [if_neg h1]
      by_cases h2 : b = SDL_BUTTON_RIGHT
      · rw [if_pos h2]; exact button false false
      · rw [if_neg h2]; exact ⟨rfl, rfl, rfl, rfl, rfl, nil⟩

theorem Video_Tick_round_frame (w : World) (e : SDL_Event) :
    (Video_Tick_round w e).s_video_lock = w.s_video_lock
    ∧ (Video_Tick_round w e).exited = w.exited
    ∧ (Video_Tick_round w e).events = w.events.tail
    ∧ (Video_Tick_round w e).s_renderer = w.s_renderer
    ∧ (Video_Tick_round w e).s_texture = w.s_texture
    ∧ ∃ ext, (Video_Tick_round w e).calls = w.calls ++ ext
        ∧ ∀ c ∈ ext, Call.isDrawOrPresent c = false := by
  obtain ⟨h1, h2, h3, h4, h5, ext, h6, h7⟩ :=
    Video_Tick_dispatch_frame (({ w with events := w.events.tail }).call Call.SDL_PollEvent) e
  refine ⟨h1, h2, h3, h4, h5, Call.SDL_PollEvent :: ext, ?_, ?_⟩
  · show (Video_Tick_dispatch _ e).calls = _
    rw [h6]
    simp [World.call]
  · intro c hc
    rcases List.mem_cons.mp hc with rfl | hc
    · rfl
    · exact h7 c hc

theorem Video_Tick_rounds_frame (evs : List SDL_Event) :
    ∀ w : World,
      (evs.foldl Video_Tick_round w).s_video_lock = w.s_video_lock
      ∧ (evs.foldl Video_Tick_round w).exited = w.exited
      ∧ (evs.foldl Video_Tick_round w).s_renderer = w.s_renderer
      ∧ (evs.foldl Video_Tick_round w).s_texture = w.s_texture
      ∧ ∃ ext, (evs.foldl Video_Tick_round w).calls = w.calls ++ ext
          ∧ ∀ c ∈ ext, Call.isDrawOrPresent c = false := by
  induction evs with
  | nil =>
    intro w
    exact ⟨rfl, rfl, rfl, rfl, [], (List.append_nil _).symm, by simp⟩
  | cons e rest ih =>
    intro w
    obtain ⟨a1, a2, _, a4, a5, ext1, a6, a7⟩ := Video_Tick_round_frame w e
    obtain ⟨b1, b2, b4, b5, ext2, b6, b7⟩ := ih (Video_Tick_round w e)
    rw [List.foldl_cons]
    refine ⟨b1.trans a1, b2.trans a2, b4.trans a4, b5.trans a5, ext1 ++ ext2, ?_, ?_⟩
    · rw [b6, a6, List.append_assoc]
    · intro c hc
      rcases List.mem_append.mp hc with hc | hc
      · exact a7 c hc
      · exact b7 c hc

/-- Without `SDL_QUIT` in the queue the poll loop is one round per event, in queue order,
and a last poll that finds the queue empty. -/
theorem Video_Tick_loop_eq_rounds (evs : List SDL_Event) :
    ∀ w : World, SDL_Event.quit ∉ evs → w.events = evs →
      Video_Tick_loop evs w = (evs.foldl Video_Tick_round w).call Call.SDL_PollEvent := by
  induction evs with
  | nil =>
    intro w _ _
    rfl
  | cons e rest ih =>
    intro w hq hev
    have hne : e ≠ SDL_Event.quit := fun h => hq (by rw [h]; exact List.mem_cons_self _ _)
    have hrest : SDL_Event.quit ∉ rest := fun h => hq (List.mem_cons_of_mem _ h)
    have htail : w.events.tail = rest := by rw [hev]; rfl
    have step : Video_Tick_loop (e :: rest) w
        = Video_Tick_loop rest (Video_Tick_round w e) := by
      unfold Video_Tick_round
      rw [htail]
      cases e with
      | quit => exact absurd rfl hne
      | mouseMotion x y => rfl
      | mouseButtonDown b => rfl
      | mouseButtonUp b => rfl
      | keyDown k => rfl
      | keyUp k => rfl
      | other t => rfl
    rw [step, List.foldl_cons]
    apply ih _ hrest
    rw [(Video_Tick_round_frame w e).2.2.1, htail]

theorem Video_Tick_unblocked (w : World) (hi : w.s_video_initialized = true)
    (hf : w.g_fileOperation = 0) (hl : w.s_video_lock = false) :
    Video_Tick w
      = (if (Video_Tick_loop w.events { w with s_video_lock := true }).exited then
          Video_Tick_loop w.events { w with s_video_lock := true }
        else
          { (Video_DrawScreen (Video_Tick_loop w.events { w with s_video_lock := true })).call
              (Call.SDL_RenderPresent
                (Video_DrawScreen
                  (Video_Tick_loop w.events { w with s_video_lock := true })).s_renderer)
            with s_video_lock := false }) := by
  unfold Video_Tick
  simp only [hi, hf, hl, Bool.not_true, ne_eq, not_true_eq_false, if_false, Bool.false_eq_true]

/-- C11: in an initialised, unsuppressed, unguarded state of a running process whose queue
holds no `SDL_QUIT`, `Video_Tick` takes the guard, runs one round per queued event in queue
order (the empty queue gives no round), polls once more, and then calls `Video_DrawScreen`
once and `SDL_RenderPresent` once, in that order, after every dispatch; nothing the rounds
log is a draw or a present. The guard flag is set before every round and during the draw,
and clear in the state the tick returns. -/
theorem C11_tick_drains_then_draws_once (w : World)
    (hi : w.s_video_initialized = true) (hf : w.g_fileOperation = 0)
    (hl : w.s_video_lock = false) (hx : w.exited = false)
    (hq : SDL_Event.quit ∉ w.events) :
    Video_Tick w
        = { (Video_DrawScreen
              ((w.events.foldl Video_Tick_round { w with s_video_lock := true }).call
                Call.SDL_PollEvent)).call (Call.SDL_RenderPresent w.s_renderer)
            with s_video_lock := false }
    ∧ (∀ pre post : List SDL_Event, w.events = pre ++ post →
        (pre.foldl Video_Tick_round { w with s_video_lock := true }).s_video_lock = true)
    ∧ (Video_DrawScreen
        ((w.events.foldl Video_Tick_round { w with s_video_lock := true }).call
          Call.SDL_PollEvent)).s_video_lock = true
    ∧ (Video_Tick w).s_video_lock = false
    ∧ ∃ mid, (Video_Tick w).calls
        = w.calls ++ mid ++ [Call.GFX_Screen_Get_ByIndex, Call.SDL_UpdateTexture w.s_texture,
            Call.SDL_RenderCopy w.s_renderer w.s_texture, Call.SDL_RenderPresent w.s_renderer]
      ∧ ∀ c ∈ mid, Call.isDrawOrPresent c = false := by
  obtain ⟨f1, f2, f4, f5, ext, f6, f7⟩ :=
    Video_Tick_rounds_frame w.events { w with s_video_lock := true }
  have hloop := Video_Tick_loop_eq_rounds w.events { w with s_video_lock := true } hq rfl
  have hex : ((w.events.foldl Video_Tick_round { w with s_video_lock := true }).call
      Call.SDL_PollEvent).exited = false := by
    show (w.events.foldl Video_Tick_round { w with s_video_lock := true }).exited = false
    rw [f2]
    exact hx
  have hren : (Video_DrawScreen
      ((w.events.foldl Video_Tick_round { w with s_video_lock := true }).call
        Call.SDL_PollEvent)).s_renderer = w.s_renderer := by
    show (w.events.foldl Video_Tick_round { w with s_video_lock := true }).s_renderer = _
    rw [f4]
  have main : Video_Tick w
      = { (Video_DrawScreen
            ((w.events.foldl Video_Tick_round { w with s_video_lock := true }).call
              Call.SDL_PollEvent)).call (Call.SDL_RenderPresent w.s_renderer)
          with s_video_lock := false } := by
    rw [Video_Tick_unblocked w hi hf hl, hloop, hex, hren]
    rfl
  refine ⟨main, ?_, ?_, ?_, ?_⟩
  · intro pre post _
    rw [(Video_Tick_rounds_frame pre { w with s_video_lock := true }).1]
  · show (w.events.foldl Video_Tick_round { w with s_video_lock := true }).s_video_lock = true
    rw [f1]
  · rw [main]
  · refine ⟨ext ++ [Call.SDL_PollEvent], ?_, ?_⟩
    · rw [main]
      show (w.events.foldl Video_Tick_round { w with s_video_lock := true }).calls
          ++ [Call.SDL_PollEvent] ++ [Call.GFX_Screen_Get_ByIndex]
          ++ [Call.SDL_UpdateTexture
                (w.events.foldl Video_Tick_round { w with s_video_lock := true }).s_texture]
          ++ [Call.SDL_RenderCopy
                (w.events.foldl Video_Tick_round { w with s_video_lock := true }).s_renderer
                (w.events.foldl Video_Tick_round { w with s_video_lock := true }).s_texture]
          ++ [Call.SDL_RenderPresent w.s_renderer] = _
      rw [f6, f4, f5]
      simp
    · intro c hc
      rcases List.mem_append.mp hc with hc | hc
      · exact f7 c hc
      · rw [List.mem_singleton.mp hc]
        rfl

set_option maxRecDepth 100000 in
/-- Witness of C11: an initialised driver with three events queued, a press of `a`, a press
of the unmapped symbol 0x3A and a click of the middle button (2). -/
theorem C11_tick_drains_then_draws_once_witness :
    SDL_Event.quit ∉ [SDL_Event.keyDown 0x61, SDL_Event.keyDown 0x3A, SDL_Event.mouseButtonDown 2]
    ∧ (Video_Tick { World.start (fun _ => 0)
          [SDL_Event.keyDown 0x61, SDL_Event.keyDown 0x3A, SDL_Event.mouseButtonDown 2] with
          s_video_initialized := true }).s_video_lock = false
    ∧ (Video_Tick { World.start (fun _ => 0)
          [SDL_Event.keyDown 0x61, SDL_Event.keyDown 0x3A, SDL_Event.mouseButtonDown 2] with
          s_video_initialized := true }).calls
        = [Call.SDL_PollEvent, Call.Input_EventHandler 0x1E, Call.SDL_PollEvent,
            Call.Warning 0x3A, Call.SDL_PollEvent, Call.SDL_PollEvent,
            Call.GFX_Screen_Get_ByIndex, Call.SDL_UpdateTexture 0, Call.SDL_RenderCopy 0 0,
            Call.SDL_RenderPresent 0] :=
  ⟨by decide,
    (C11_tick_drains_then_draws_once
      { World.start (fun _ => 0)
          [SDL_Event.keyDown 0x61, SDL_Event.keyDown 0x3A, SDL_Event.mouseButtonDown 2] with
          s_video_initialized := true }
      rfl rfl rfl rfl (by decide)).2.2.2.1,
    by decide⟩

theorem Video_Tick_loop_calls_grow (evs : List SDL_Event) :
    ∀ w : World, w.calls.length < (Video_Tick_loop evs w).calls.length := by
  induction evs with
  | nil =>
    intro w
    simp [Video_Tick_loop, World.call]
  | cons e rest ih =>
    intro w
    have hd : ∀ e2 : SDL_Event, w.calls.length
        < (Video_Tick_loop rest
            (Video_Tick_dispatch (({ w with events := rest }).call Call.SDL_PollEvent)
              e2)).calls.length := by
      intro e2
      obtain ⟨_, _, _, _, _, ext, h6, _⟩ :=
        Video_Tick_dispatch_frame (({ w with events := rest }).call Call.SDL_PollEvent) e2
      have h := ih (Video_Tick_dispatch (({ w with events := rest }).call Call.SDL_PollEvent) e2)
      have hlen := congrArg List.length h6
      rw [List.length_append] at hlen
      have hw1 : (({ w with events := rest }).call Call.SDL_PollEvent).calls.length
          = w.calls.length + 1 := by
        simp [World.call]
      omega
    cases e with
    | quit => simp [Video_Tick_loop, World.call]
    | mouseMotion x y => exact hd _
    | mouseButtonDown b => exact hd _
    | mouseButtonUp b => exact hd _
    | keyDown k => exact hd _
    | keyUp k => exact hd _
    | other t => exact hd _

/-- A tick that passes the three guards logs at least one call, the first poll. -/
theorem Video_Tick_unblocked_calls_grow (w : World) (hi : w.s_video_initialized = true)
    (hf : w.g_fileOperation = 0) (hl : w.s_video_lock = false) :
    w.calls.length < (Video_Tick w).calls.length := by
  have h := Video_Tick_loop_calls_grow w.events { w with s_video_lock := true }
  rw [Video_Tick_unblocked w hi hf hl]
  split
  · exact h
  · simp only [Video_DrawScreen, World.call, List.length_append, List.length_singleton]
    simp only at h
    omega

/-! ## The guard flag after a palette update -/

theorem Video_SetPalette_some_lock (w w1 : World) (buf : Nat → Nat) (from_ length : Int)
    (h : Video_SetPalette w buf from_ length = some w1) :
    w1.s_video_lock = false
    ∧ w1.s_video_initialized = w.s_video_initialized
    ∧ w1.g_fileOperation = w.g_fileOperation := by
  unfold Video_SetPalette at h
  simp only at h
  split at h
  · exact absurd h (by simp)
  · have hw := Option.some.inj h
    subst hw
    exact ⟨rfl, rfl, rfl⟩

/-- C16: `Video_SetPalette` returns for every in-range request, and whenever it returns the
guard flag is false, whatever it was on entry. So if the guard was held on entry (where
`Video_Tick` does nothing), the value is not put back, and a `Video_Tick` on the state
after the palette update passes the guard check: in an initialised, unsuppressed state it
polls, so its log of calls grows. -/
theorem C16_setPalette_clears_guard (w : World) (buf : Nat → Nat) (from_ length : Int)
    (hf : 0 ≤ from_) (hl : 0 ≤ length) (hb : from_ + length ≤ 256) :
    (∀ (buf2 : Nat → Nat) (from2 length2 : Int) (w2 : World),
        Video_SetPalette w buf2 from2 length2 = some w2 → w2.s_video_lock = false)
    ∧ ∃ w1, Video_SetPalette w buf from_ length = some w1
        ∧ w1.s_video_lock = false
        ∧ (w.s_video_lock = true → w.s_video_initialized = true → w.g_fileOperation = 0 →
            Video_Tick w = w
            ∧ w1.s_video_lock ≠ w.s_video_lock
            ∧ w1.calls.length < (Video_Tick w1).calls.length
            ∧ Video_Tick w1 ≠ w1) := by
  refine ⟨fun buf2 from2 length2 w2 h => (Video_SetPalette_some_lock w w2 buf2 from2 length2 h).1,
    ?_⟩
  have hsome := Video_SetPalette_eq w buf from_ length hf hl hb
  obtain ⟨k1, k2, k3⟩ := Video_SetPalette_some_lock w _ buf from_ length hsome
  refine ⟨_, hsome, k1, ?_⟩
  intro hheld hi hfo
  have hgrow := Video_Tick_unblocked_calls_grow _ (k2.trans hi) (k3.trans hfo) k1
  refine ⟨?_, ?_, hgrow, ?_⟩
  · unfold Video_Tick
    simp [hi, hfo, hheld]
  · rw [k1, hheld]
    decide
  · intro heq
    rw [heq] at hgrow
    exact Nat.lt_irrefl _ hgrow

/-- Witness of C16: an initialised driver whose guard is held; entries 0 and 1 are set. -/
theorem C16_setPalette_clears_guard_witness :
    (0 : Int) ≤ 0 ∧ (0 : Int) ≤ 2 ∧ (0 : Int) + 2 ≤ 256
    ∧ ∃ w1, Video_SetPalette
          { World.start (fun _ => 0) [] with s_video_initialized := true, s_video_lock := true }
          (fun _ => 63) 0 2 = some w1
        ∧ w1.s_video_lock = false :=
  ⟨by decide, by decide, by decide,
    (C16_setPalette_clears_guard
      { World.start (fun _ => 0) [] with s_video_initialized := true, s_video_lock := true }
      (fun _ => 63) 0 2 (by decide) (by decide) (by decide)).2.elim
      (fun w1 h => ⟨w1, h.1, h.2.1⟩)⟩

/-! ## Initialisation -/

theorem Video_Init_true_sets_flag (w : World) (host : Video_Init_host)
    (h : (Video_Init w host).2 = true) : (Video_Init w host).1.s_video_initialized = true := by
  unfold Video_Init at h ⊢
  by_cases h0 : w.s_video_initialized = true
  · simp only [h0, if_true]
  · simp only [h0] at h ⊢
    split_ifs at h ⊢ <;> simp_all

/-- C14: with the initialised flag set, `Video_Init` returns true and the state as it was,
the log of calls included, so no host call is made; hence after a call that returned true
a second call returns true and changes nothing. With the flag clear, if `SDL_Init`,
`SDL_CreateWindowAndRenderer` or `SDL_RenderSetLogicalSize` returns nonzero, or
`SDL_CreateTexture` or `malloc` returns `NULL`, the call returns false and the flag is
still clear. -/
theorem C14_init_idempotent (w : World) (host host2 : Video_Init_host) :
    (w.s_video_initialized = true → Video_Init w host = (w, true))
    ∧ ((Video_Init w host).2 = true →
        Video_Init (Video_Init w host).1 host2 = ((Video_Init w host).1, true)
        ∧ (Video_Init (Video_Init w host).1 host2).1.calls = (Video_Init w host).1.calls)
    ∧ (w.s_video_initialized = false →
        (host.SDL_Init ≠ 0 ∨ host.SDL_CreateWindowAndRenderer ≠ 0
          ∨ host.SDL_RenderSetLogicalSize ≠ 0 ∨ host.SDL_CreateTexture = 0 ∨ host.malloc = 0) →
        (Video_Init w host).2 = false
        ∧ (Video_Init w host).1.s_video_initialized = false) := by
  have idem : ∀ (v : World) (h2 : Video_Init_host), v.s_video_initialized = true →
      Video_Init v h2 = (v, true) := by
    intro v h2 hv
    unfold Video_Init
    simp only [hv, if_true]
  refine ⟨idem w host, ?_, ?_⟩
  · intro hres
    have hflag := Video_Init_true_sets_flag w host hres
    have h := idem _ host2 hflag
    exact ⟨h, by rw [h]⟩
  · intro h0 hfail
    unfold Video_Init
    simp only [h0]
    split_ifs <;> simp_all [World.call]

/-- Witness of C14: from the start state, a host on which every step succeeds gives true
and a second call changes nothing; a host whose `SDL_CreateTexture` returns `NULL` gives
false with the flag clear. -/
theorem C14_init_idempotent_witness :
    (Video_Init (World.start (fun _ => 0) [])
        { SDL_Init := 0, SDL_CreateWindowAndRenderer := 0, window := 1, renderer := 2,
          SDL_RenderSetLogicalSize := 0, SDL_CreateTexture := 3, malloc := 4,
          memory := fun _ => 0 }).2 = true
    ∧ (Video_Init
        (Video_Init (World.start (fun _ => 0) [])
          { SDL_Init := 0, SDL_CreateWindowAndRenderer := 0, window := 1, renderer := 2,
            SDL_RenderSetLogicalSize := 0, SDL_CreateTexture := 3, malloc := 4,
            memory := fun _ => 0 }).1
        { SDL_Init := 0, SDL_CreateWindowAndRenderer := 0, window := 1, renderer := 2,
          SDL_RenderSetLogicalSize := 0, SDL_CreateTexture := 3, malloc := 4,
          memory := fun _ => 0 }).1.calls
      = [Call.SDL_Init, Call.SDL_CreateWindowAndRenderer 640 400, Call.SDL_SetWindowTitle 1,
          Call.SDL_RenderSetLogicalSize 2 320 200, Call.SDL_CreateTexture 2 320 200,
          Call.malloc 256000, Call.SDL_ShowCursor 0]
    ∧ (Video_Init (World.start (fun _ => 0) [])
        { SDL_Init := 0, SDL_CreateWindowAndRenderer := 0, window := 1, renderer := 2,
          SDL_RenderSetLogicalSize := 0, SDL_CreateTexture := 0, malloc := 4,
          memory := fun _ => 0 }).2 = false :=
  ⟨rfl,
    (((C14_init_idempotent (World.start (fun _ => 0) [])
      { SDL_Init := 0, SDL_CreateWindowAndRenderer := 0, window := 1, renderer := 2,
        SDL_RenderSetLogicalSize := 0, SDL_CreateTexture := 3, malloc := 4,
        memory := fun _ => 0 }
      { SDL_Init := 0, SDL_CreateWindowAndRenderer := 0, window := 1, renderer := 2,
        SDL_RenderSetLogicalSize := 0, SDL_CreateTexture := 3, malloc := 4,
        memory := fun _ => 0 }).2.1 rfl).2).trans (by decide),
    ((C14_init_idempotent (World.start (fun _ => 0) [])
      { SDL_Init := 0, SDL_CreateWindowAndRenderer := 0, window := 1, renderer := 2,
        SDL_RenderSetLogicalSize := 0, SDL_CreateTexture := 0, malloc := 4,
        memory := fun _ => 0 }
      { SDL_Init := 0, SDL_CreateWindowAndRenderer := 0, window := 1, renderer := 2,
        SDL_RenderSetLogicalSize := 0, SDL_CreateTexture := 0, malloc := 4,
        memory := fun _ => 0 }).2.2 rfl (Or.inr (Or.inr (Or.inr (Or.inl rfl))))).1⟩

/-- Witness of C17: the letter `a` (symbol 0x61): press 0x1E, release 0x9E. -/
theorem C17_keymap_entries_below_0x80_witness :
    toUInt32 0x61 < 320 ∧ s_SDL_keymap.getD (toUInt32 0x61) 0 ≠ 0
    ∧ ∃ press release : Nat,
        (Video_Tick_dispatch (World.start (fun _ => 0) []) (SDL_Event.keyDown 0x61)).calls
            = (World.start (fun _ => 0) []).calls ++ [Call.Input_EventHandler press]
        ∧ (Video_Tick_dispatch (World.start (fun _ => 0) []) (SDL_Event.keyUp 0x61)).calls
            = (World.start (fun _ => 0) []).calls ++ [Call.Input_EventHandler release]
        ∧ press = 0x1E ∧ release = 0x9E :=
  ⟨by decide, by decide,
    ((C17_keymap_entries_below_0x80 (World.start (fun _ => 0) []) 0x61).2.2
      (by decide) (by decide)).elim
      (fun press h => h.elim (fun release g =>
        ⟨press, release, g.1, g.2.1, g.2.2.1.trans (by decide), g.2.2.2.1.trans (by decide)⟩))⟩

end OpenDUNE
